import Mathlib

/-!
Shallow embedding of the Figma-to-email-HTML plugin (`code.ts`) and proofs
about it.  JS strings are modelled as Lean `String` / `List Char`; JS numbers
as `ℚ` (with `Math.round` made explicit); the Figma scene graph as an
inductive tree.  Definitions follow the source line by line; the host-API
operations (`getStyledTextSegments`, `exportAsync`, parent-pointer walks) are
represented by data stored on the modelled node, as noted at each site.
-/

namespace FigmaPlugin

/-- JS `Math.round`: round half toward positive infinity. -/
def jsRound (q : ℚ) : ℤ := (q + 0.5).floor

/-- Split a character list at every occurrence of `c`; models JS
`String.prototype.split` with a single-character separator (so
`"".split(c) = [""]` and separators at the ends produce empty pieces). -/
def splitOnChar (c : Char) : List Char → List (List Char)
  | [] => [[]]
  | x :: xs =>
    match splitOnChar c xs with
    | [] => [[]]
    | h :: t => if x = c then [] :: h :: t else (x :: h) :: t

/-- Join pieces with the separator `c` between them; models
`Array.prototype.join` with a one-character separator. -/
def joinWithChar (c : Char) : List (List Char) → List Char
  | [] => []
  | [p] => p
  | p :: ps => p ++ c :: joinWithChar c ps

/-- Models JS `String.prototype.trim` (whitespace stripped from both ends). -/
def trimChars (l : List Char) : List Char :=
  List.rdropWhile Char.isWhitespace (l.dropWhile Char.isWhitespace)

/-- An insertion-ordered `prop ↦ value` table; models a JS `Map<string,string>`:
`set` overwrites the value of an existing key in place, otherwise appends. -/
def mapSet (m : List (List Char × List Char)) (k v : List Char) :
    List (List Char × List Char) :=
  if m.any (fun kv => kv.1 == k) then
    m.map (fun kv => if kv.1 == k then (kv.1, v) else kv)
  else m ++ [(k, v)]

/-- The `forEach` body of `sanitizeStyles` (code.ts lines 76-82): split a rule
at `:`, take the first piece as key, re-join and trim the remainder as value,
and store under the trimmed key, skipping a rule with an empty (falsy) key or
an empty trimmed value. -/
def sanitizeStep (styleMap : List (List Char × List Char)) (rule : List Char) :
    List (List Char × List Char) :=
  match splitOnChar ':' rule with
  | [] => styleMap
  | key :: valueParts =>
    let value := trimChars (joinWithChar ':' valueParts)
    if key = [] ∨ value = [] then styleMap
    else mapSet styleMap (trimChars key) value

/-- The map built by `sanitizeStyles` from the nonempty rules. -/
def sanitizeRules (rules : List (List Char)) : List (List Char × List Char) :=
  rules.foldl sanitizeStep []

/-- The serialization `${k}:${v}` of one stored entry (code.ts line 83). -/
def entryChars (kv : List Char × List Char) : List Char := kv.1 ++ ':' :: kv.2

/-- `sanitizeStyles` (code.ts lines 73-84). -/
def sanitizeStyles (styleStr : String) : String :=
  if styleStr = "" then "" else
  let rules := (splitOnChar ';' styleStr.data).filter (fun rule => trimChars rule ≠ [])
  let styleMap := sanitizeRules rules
  ⟨joinWithChar ';' (styleMap.map entryChars)⟩

/-- The per-entry invariant a stored key enjoys after `sanitizeStyles`
(assuming no stored key trims to empty): no `:` or `;` inside, already
trimmed, nonempty. -/
def GoodKey (k : List Char) : Prop :=
  ':' ∉ k ∧ ';' ∉ k ∧ trimChars k = k ∧ k ≠ []

/-- The per-entry invariant a stored value enjoys after `sanitizeStyles`:
no `;` inside, already trimmed, nonempty. -/
def GoodVal (v : List Char) : Prop :=
  ';' ∉ v ∧ trimChars v = v ∧ v ≠ []

/-- JS `String.prototype.includes`, on character lists. -/
def containsSeq (l pat : List Char) : Bool := decide (pat <:+: l)

/-- The regex test `/^0(px|pt|em|%|vw|vh)?$/.test(value)` (code.ts line 92). -/
def isZeroValue (v : List Char) : Bool :=
  v == "0".data || v == "0px".data || v == "0pt".data || v == "0em".data ||
  v == "0%".data || v == "0vw".data || v == "0vh".data

/-- The filter callback of `cleanZeroValueStyles` (code.ts lines 88-97).  Note the
JS operator precedence: `a || b && c` parses as `a || (b && c)`, so a rule whose
key contains `border-radius` is dropped regardless of its value. -/
def cleanKeepRule (rule : List Char) : Bool :=
  if trimChars rule = [] then false
  else
    match (splitOnChar ':' rule).map trimChars with
    | [] => true
    | [_] => true
    | key :: value :: _ =>
      if value = [] then true
      else if containsSeq key "border-radius".data
          || (("padding".data.isPrefixOf key || "margin".data.isPrefixOf key
              || "border".data.isPrefixOf key) && isZeroValue value) then false
      else true

/-- `cleanZeroValueStyles` (code.ts lines 86-98). -/
def cleanZeroValueStyles (styleStr : String) : String :=
  if styleStr = "" then "" else
  ⟨joinWithChar ';' ((splitOnChar ';' styleStr.data).filter cleanKeepRule)⟩

/-- Stated from the spec's wording: a value that is zero, bare or with a
recognized unit. -/
def ZeroValuedDecl (v : List Char) : Prop :=
  v = "0".data ∨ v = "0px".data ∨ v = "0pt".data ∨ v = "0em".data ∨
  v = "0%".data ∨ v = "0vw".data ∨ v = "0vh".data

/-- Stated from the amended spec sentence: the cleanup drops a declaration
whose property contains `border-radius` (whatever its value), or whose
property starts with `padding`, `margin`, or `border` and whose value is
zero-valued. -/
def DroppedDecl (key value : List Char) : Prop :=
  "border-radius".data <:+: key ∨
  (("padding".data <+: key ∨ "margin".data <+: key ∨ "border".data <+: key) ∧
    ZeroValuedDecl value)

/-- An RGB color as supplied by the host API (components in `[0,1]`). -/
structure RgbColor where
  r : ℚ
  g : ℚ
  b : ℚ
deriving DecidableEq, Inhabited

/-- An RGBA color (gradient stops). -/
structure RgbaColor where
  r : ℚ
  g : ℚ
  b : ℚ
  a : ℚ
deriving DecidableEq

/-- A paint from a node's `fills`/`strokes` array.  The gradient case keeps
its first stop separate from the rest because the host API guarantees at
least one stop (`gradientStops[0]` is read unconditionally in the source). -/
inductive Paint where
  | solid (color : RgbColor) (opacity : Option ℚ) (visible : Bool)
  | gradient (stop0 : RgbaColor) (stops : List RgbaColor) (visible : Bool)
  | image (visible : Bool)
deriving DecidableEq

/-- The check `f.visible !== false`. -/
def Paint.isVisible : Paint → Bool
  | .solid _ _ v => v
  | .gradient _ _ v => v
  | .image v => v

/-- The check `s.type === "SOLID"`. -/
def Paint.isSolid : Paint → Bool
  | .solid _ _ _ => true
  | _ => false

/-- The check `f.type === "IMAGE"`. -/
def Paint.isImagePaint : Paint → Bool
  | .image _ => true
  | _ => false

/-- `n.toString(16)` for a natural number: lowercase hex digits. -/
def natToHexString (n : Nat) : List Char := Nat.toDigits 16 n

/-- `toHex` inside `figmaColorToHex` (code.ts line 12):
`("0" + Math.round(c * 255).toString(16)).slice(-2)`. -/
def toHexByte (c : ℚ) : List Char :=
  let s := '0' :: natToHexString (jsRound (c * 255)).toNat
  s.drop (s.length - 2)

/-- `figmaColorToHex` (code.ts lines 11-14). -/
def figmaColorToHex (color : RgbColor) : String :=
  ⟨'#' :: (toHexByte color.r ++ toHexByte color.g ++ toHexByte color.b)⟩

/-- `blendColors` (code.ts lines 244-249): the alpha `over` operator. -/
def blendColors (fg : RgbaColor) (bg : RgbColor) : RgbColor :=
  { r := fg.r * fg.a + bg.r * (1 - fg.a)
    g := fg.g * fg.a + bg.g * (1 - fg.a)
    b := fg.b * fg.a + bg.b * (1 - fg.a) }

/-- The `{hex, rgb}` result of the color resolver. -/
structure EffectiveColor where
  hex : Option String
  rgb : RgbColor
deriving DecidableEq

/-- The shared tail of `getEffectiveBackgroundColorForFills`
(code.ts lines 269-271): opacity at least `0.99` returns the color
unchanged, anything lower alpha-composites it over the inherited
background. -/
def resolveFill (color : RgbColor) (opacity : ℚ) (parentBgColor : RgbColor) :
    EffectiveColor :=
  if opacity ≥ 0.99 then ⟨some (figmaColorToHex color), color⟩
  else
    let finalRgb := blendColors ⟨color.r, color.g, color.b, opacity⟩ parentBgColor
    ⟨some (figmaColorToHex finalRgb), finalRgb⟩

/-- `getEffectiveBackgroundColorForFills` (code.ts lines 251-272). -/
def getEffectiveBackgroundColorForFills (fills : List Paint)
    (parentBgColor : RgbColor) : EffectiveColor :=
  if fills = [] then ⟨none, parentBgColor⟩ else
  match fills.find? Paint.isVisible with
  | none => ⟨none, parentBgColor⟩
  | some (.solid color opacity _) => resolveFill color (opacity.getD 1) parentBgColor
  | some (.gradient stop0 _ _) =>
    resolveFill ⟨stop0.r, stop0.g, stop0.b⟩ stop0.a parentBgColor
  | some (.image _) => ⟨none, parentBgColor⟩

/-- JS `String.prototype.includes`. -/
def strIncludes (s pat : String) : Bool := containsSeq s.data pat.data

/-- JS `String.prototype.trim`. -/
def strTrim (s : String) : String := ⟨trimChars s.data⟩

/-- `getFontStack` (code.ts lines 101-113). -/
def getFontStack (family : String) : String :=
  let sansSerif := "Arial, Helvetica, sans-serif"
  let serif := "Georgia, 'Times New Roman', serif"
  let monospace := "'Courier New', Courier, monospace"
  let lower := family.toLower
  if strIncludes lower "inter" || strIncludes lower "roboto" ||
      strIncludes lower "helvetica" || strIncludes lower "arial" then
    "'" ++ family ++ "', " ++ sansSerif
  else if strIncludes lower "times" || strIncludes lower "georgia" ||
      strIncludes lower "serif" then
    "'" ++ family ++ "', " ++ serif
  else if strIncludes lower "mono" || strIncludes lower "courier" then
    "'" ++ family ++ "', " ++ monospace
  else
    "'" ++ family ++ "', " ++ sansSerif

/-- A `FontName` as supplied by the host API. -/
structure FontName where
  family : String
  style : String
deriving DecidableEq

/-- A text segment's `lineHeight`. -/
inductive LineHeight where
  | auto
  | pixels (value : ℚ)
  | percent (value : ℚ)
deriving DecidableEq

/-- One run returned by `getStyledTextSegments(['fontName', 'fontSize',
'fills', 'lineHeight', 'textDecoration'])`; the host API models each field.
`fontNameIsMixed` models `typeof segment.fontName === 'symbol'`. -/
structure TextSegment where
  fontName : Option FontName
  fontNameIsMixed : Bool
  fontSize : Option ℚ
  fills : List Paint
  lineHeight : LineHeight
  textDecoration : String
  characters : String
deriving DecidableEq

/-- A JS object used as a string-keyed dictionary: `obj[k] = v` keeps the
first-insertion position of an existing key. -/
def jsSet {α β : Type} [BEq α] (m : List (α × β)) (k : α) (v : β) :
    List (α × β) :=
  if m.any (fun kv => kv.1 == k) then
    m.map (fun kv => if kv.1 == k then (kv.1, v) else kv)
  else m ++ [(k, v)]

/-- JS `obj[k]` / `map.get(k)`: `none` models `undefined`. -/
def jsGet {α β : Type} [BEq α] (m : List (α × β)) (k : α) : Option β :=
  (m.find? (fun kv => kv.1 == k)).map Prod.snd

/-- JS number-to-string interpolation; exact for integral values (the only
kind the modelled inputs use). -/
def qToString (q : ℚ) : String := if q.den = 1 then toString q.num else toString q

/-- `getSegmentStyleObject` (code.ts lines 115-134). -/
def getSegmentStyleObject (style : TextSegment) (parentBgColor : RgbColor) :
    List (String × String) :=
  let styles : List (String × String) := []
  let styles :=
    if style.fills ≠ [] then
      match (getEffectiveBackgroundColorForFills style.fills parentBgColor).hex with
      | some colorHex => jsSet styles "color" colorHex
      | none => styles
    else styles
  let styles :=
    match style.fontName with
    | some fn =>
      if fn.family ≠ "" then
        let styles := jsSet styles "font-family" (getFontStack fn.family)
        let fStyle := fn.style.toLower
        let styles := jsSet styles "font-weight"
          (if strIncludes fStyle "bold" then "700" else "400")
        jsSet styles "font-style"
          (if strIncludes fStyle "italic" then "italic" else "normal")
      else styles
    | none => styles
  let styles :=
    match style.fontSize with
    | some fs => if fs ≠ 0 then
        jsSet styles "font-size" (toString (jsRound fs) ++ "px") else styles
    | none => styles
  let styles :=
    match style.lineHeight with
    | .auto => styles
    | .pixels v => jsSet styles "line-height" (toString (jsRound v) ++ "px")
    | .percent v => jsSet styles "line-height" (toString (jsRound v) ++ "%")
  jsSet styles "text-decoration"
    (if style.textDecoration = "UNDERLINE" then "underline" else "none")

/-- `styleObjectToCssString` (code.ts lines 136-142). -/
def styleObjectToCssString (styleObj : List (String × String)) : String :=
  if styleObj = [] then "" else
  let css := String.intercalate ";" (styleObj.map (fun kv => kv.1 ++ ":" ++ kv.2))
  if css ≠ "" then css ++ ";" else ""

/-- `diffStyleObjects` (code.ts lines 144-152): the entries of the run's
style whose value differs from (or is absent in) the base style, in the
run-style's insertion order. -/
def diffStyleObjects (baseStyle segmentStyle : List (String × String)) :
    List (String × String) :=
  segmentStyle.filter (fun kv => jsGet baseStyle kv.1 ≠ some kv.2)

/-- JS `str.replace(/c/g, rep)` for a one-character pattern. -/
def replaceAllChar (c : Char) (rep : List Char) : List Char → List Char
  | [] => []
  | x :: xs => (if x = c then rep else [x]) ++ replaceAllChar c rep xs

/-- The four chained `replace` calls of code.ts line 204. -/
def sanitizeSegmentChars (chars : String) : String :=
  ⟨replaceAllChar '\n' "<br />".data
    (replaceAllChar '>' "&gt;".data
      (replaceAllChar '<' "&lt;".data
        (replaceAllChar '&' "&amp;".data chars.data)))⟩

/-- `bulletCharacterMap` (code.ts lines 1-5); `none` models a missing key. -/
def bulletCharacterMap : String → Option String
  | "•" => some "&#8226;"
  | "*" => some "&#8226;"
  | "-" => some "&#8211;"
  | _ => none

/-- The running state of the base-style tally (code.ts lines 166-186):
the per-style accumulated character counts, the running maximum
(initially `-1`), and the current most common style. -/
structure BaseStyleState where
  styleCounts : List (List (String × String) × Nat)
  maxCount : ℤ
  mostCommonStyle : List (String × String)

/-- One iteration of the tally (code.ts lines 177-184): bump the style's
accumulated count by the run's character count and take over the most-common
slot only when the new count strictly exceeds the running maximum.  A style
map is its own grouping key, mirroring `JSON.stringify(style)` on an
insertion-ordered object. -/
def baseStyleStep (st : BaseStyleState) (seg : List (String × String) × Nat) :
    BaseStyleState :=
  let current := (jsGet st.styleCounts seg.1).getD 0
  let newCount := current + seg.2
  let counts := jsSet st.styleCounts seg.1 newCount
  if (newCount : ℤ) > st.maxCount then ⟨counts, (newCount : ℤ), seg.1⟩
  else ⟨counts, st.maxCount, st.mostCommonStyle⟩

/-- The whole tally over the processed segments, as `(style, length)` pairs. -/
def computeBaseStyle (segs : List (List (String × String) × Nat)) :
    BaseStyleState :=
  segs.foldl baseStyleStep ⟨[], -1, []⟩

/-- The node kinds the engine distinguishes (`node.type` strings); `inst`
stands for the INSTANCE kind (the word itself is reserved in Lean), `other`
for every unhandled kind. -/
inductive NodeType where
  | frame | group | component | inst | rectangle | ellipse | text | vector
  | line | other
deriving DecidableEq, Inhabited

/-- `layoutMode` values; `noneMode` is the string `NONE`. -/
inductive LayoutMode where
  | noneMode | horizontal | vertical
deriving DecidableEq, Inhabited

/-- The attributes of one scene node.  Host-API reads that cannot live in a
child-owned tree are stored as data: `segments` models
`getStyledTextSegments(...)`, `exportData` models a successful
`exportAsync`+`base64Encode` (with `none` an export failure), `ancestorBg`
models the parent walk `findParentBackgroundColor(node)`, and
`parentIsPage` models `node.parent?.type === 'PAGE'`.  An `Option` field is
`none` when the property is absent from the node (or reads `figma.mixed`). -/
structure NodeData where
  type : NodeType
  visible : Bool
  hasOpacity : Bool
  opacity : ℚ
  x : ℚ
  y : ℚ
  width : ℚ
  height : ℚ
  name : String
  fills : Option (List Paint)
  strokes : List Paint
  strokeWeight : Option ℚ
  layoutMode : Option LayoutMode
  paddingLeft : Option ℚ
  paddingRight : Option ℚ
  paddingTop : Option ℚ
  paddingBottom : Option ℚ
  itemSpacing : Option ℚ
  counterAxisAlignItems : String
  characters : String
  segments : List TextSegment
  textAlignHorizontal : String
  exportData : Option String
  ancestorBg : RgbColor
  parentIsPage : Bool
deriving DecidableEq, Inhabited

/-- A scene node: its attributes and its ordered children. -/
inductive SceneNode where
  | mk (data : NodeData) (children : List SceneNode)

instance : Inhabited SceneNode := ⟨.mk default []⟩

def SceneNode.data : SceneNode → NodeData
  | .mk d _ => d

def SceneNode.children : SceneNode → List SceneNode
  | .mk _ cs => cs

def SceneNode.type (n : SceneNode) : NodeType := n.data.type

def SceneNode.visible (n : SceneNode) : Bool := n.data.visible

def SceneNode.y (n : SceneNode) : ℚ := n.data.y

def SceneNode.width (n : SceneNode) : ℚ := n.data.width

def SceneNode.height (n : SceneNode) : ℚ := n.data.height

def SceneNode.name (n : SceneNode) : String := n.data.name

def SceneNode.fills (n : SceneNode) : Option (List Paint) := n.data.fills

def SceneNode.strokes (n : SceneNode) : List Paint := n.data.strokes

def SceneNode.strokeWeight (n : SceneNode) : Option ℚ := n.data.strokeWeight

def SceneNode.layoutMode (n : SceneNode) : Option LayoutMode := n.data.layoutMode

def SceneNode.paddingLeft (n : SceneNode) : Option ℚ := n.data.paddingLeft

def SceneNode.paddingRight (n : SceneNode) : Option ℚ := n.data.paddingRight

def SceneNode.paddingTop (n : SceneNode) : Option ℚ := n.data.paddingTop

def SceneNode.paddingBottom (n : SceneNode) : Option ℚ := n.data.paddingBottom

def SceneNode.itemSpacing (n : SceneNode) : Option ℚ := n.data.itemSpacing

def SceneNode.counterAxisAlignItems (n : SceneNode) : String :=
  n.data.counterAxisAlignItems

def SceneNode.characters (n : SceneNode) : String := n.data.characters

def SceneNode.segments (n : SceneNode) : List TextSegment := n.data.segments

def SceneNode.textAlignHorizontal (n : SceneNode) : String :=
  n.data.textAlignHorizontal

def SceneNode.exportData (n : SceneNode) : Option String := n.data.exportData

def SceneNode.ancestorBg (n : SceneNode) : RgbColor := n.data.ancestorBg

def SceneNode.parentIsPage (n : SceneNode) : Bool := n.data.parentIsPage

def SceneNode.hasOpacity (n : SceneNode) : Bool := n.data.hasOpacity

def SceneNode.opacity (n : SceneNode) : ℚ := n.data.opacity

/-- `processTextNode` (code.ts lines 154-227): segment the text, tally the
dominant base style, then emit each run diffed against it. -/
def processTextNode (node : SceneNode) (parentBgColor : RgbColor) :
    List (String × String) × String :=
  if strTrim node.characters = "" then ([], "")
  else
    let segments := node.segments
    if segments = [] then ([], "")
    else
      let processedSegments := segments.map (fun segment =>
        if segment.fontNameIsMixed then none
        else some (segment, getSegmentStyleObject segment parentBgColor))
      let tally := computeBaseStyle (processedSegments.filterMap
        (fun o => o.map (fun sp => (sp.2, sp.1.characters.length))))
      let mostCommonStyle := tally.mostCommonStyle
      let mostCommonStyle :=
        if mostCommonStyle = [] then
          match processedSegments.find? (fun s => s.isSome) with
          | some (some sp) => sp.2
          | _ => mostCommonStyle
        else mostCommonStyle
      let baseStyle := mostCommonStyle
      let htmlOutput := processedSegments.foldl (fun htmlOutput item =>
        match item with
        | none => htmlOutput
        | some (segment, segmentStyle) =>
          let styleDiff := diffStyleObjects baseStyle segmentStyle
          let sanitizedChars := sanitizeSegmentChars segment.characters
          let finalContent :=
            (bulletCharacterMap (strTrim sanitizedChars)).getD sanitizedChars
          if finalContent = "" then htmlOutput
          else if styleDiff = [] then htmlOutput ++ finalContent
          else
            let diffKeys := styleDiff.map Prod.fst
            let tag :=
              if diffKeys = ["font-weight"] ∧
                  jsGet styleDiff "font-weight" = some "700" then "strong"
              else if diffKeys = ["font-style"] ∧
                  jsGet styleDiff "font-style" = some "italic" then "i"
              else "span"
            let diffCss := styleObjectToCssString styleDiff
            htmlOutput ++ "<" ++ tag ++ " " ++
              (if diffCss ≠ "" then "style=\"" ++ diffCss ++ "\"" else "") ++
              ">" ++ finalContent ++ "</" ++ tag ++ ">") ""
      (baseStyle, htmlOutput)

/-- JS `str.endsWith(';')`. -/
def endsWithSemi (s : String) : Bool := s.data.getLast? == some ';'

/-- `getBorderStyles` (code.ts lines 231-242); the parent-background walk is
the node's stored `ancestorBg`. -/
def getBorderStyles (node : SceneNode) : Option String :=
  if node.strokes = [] then none
  else match node.strokeWeight with
  | none => none
  | some sw =>
    if sw = 0 then none
    else match node.strokes.find? (fun s => s.isVisible && s.isSolid) with
    | none => none
    | some stroke =>
      let weight := jsRound sw
      if weight = 0 then none
      else
        let parentBg := node.ancestorBg
        let colorHex := (getEffectiveBackgroundColorForFills [stroke] parentBg).hex
        some ("border: " ++ toString weight ++ "px solid " ++
          colorHex.getD "#000000" ++ ";")

/-- `getEffectiveBackgroundColor` (code.ts lines 274-280). -/
def getEffectiveBackgroundColor (node : SceneNode) (parentBgColor : RgbColor) :
    EffectiveColor :=
  match node.fills with
  | some fills => getEffectiveBackgroundColorForFills fills parentBgColor
  | none => ⟨none, parentBgColor⟩

/-- `isBulletPoint` (code.ts lines 605-611). -/
def isBulletPoint (node : SceneNode) : Bool :=
  if node.type ≠ NodeType.frame ∨ node.visible = false ∨
      node.layoutMode ≠ some LayoutMode.horizontal ∨
      node.children.length ≠ 2 then false
  else
    match node.children with
    | [firstChild, secondChild] =>
      if firstChild.type ≠ NodeType.text ∨ secondChild.type ≠ NodeType.text
        then false
      else
        let bulletChar := strTrim firstChild.characters
        bulletChar.length == 1 && (bulletCharacterMap bulletChar).isSome
    | _ => false

/-- `isImageLikeNode` (code.ts lines 282-289), with a recursion budget for
the descent into children (any budget at least the tree height is exact). -/
def isImageLikeNode : Nat → SceneNode → Bool
  | 0, _ => false
  | fuel + 1, node =>
    if (node.type = NodeType.rectangle ∨ node.type = NodeType.ellipse) ∧
        (match node.fills with
         | some fills => fills.any Paint.isImagePaint
         | none => false) = true then true
    else if node.type = NodeType.vector ∨ node.type = NodeType.line then true
    else if node.children.length > 0 then
      node.children.all (fun child =>
        child.type != NodeType.text && isImageLikeNode fuel child)
    else false

/-- `renderShape` (code.ts lines 532-540). -/
def renderShape (node : SceneNode) (parentBgColor : RgbColor) : String :=
  if node.width < 1 ∨ node.height < 1 then ""
  else
    let bgColorHex := (getEffectiveBackgroundColor node parentBgColor).hex
    let finalHeight := jsRound node.height
    let parts : List (Option String) := [
      bgColorHex.map (fun h => "background-color:" ++ h),
      some ("height:" ++ toString finalHeight ++ "px;"),
      some "font-size:1px;",
      some "line-height:1px;",
      getBorderStyles node]
    let cellStyles :=
      sanitizeStyles (cleanZeroValueStyles
        (String.intercalate ";" (parts.filterMap id)))
    let cellStyles :=
      if cellStyles ≠ "" ∧ ¬ endsWithSemi cellStyles then cellStyles ++ ";"
      else cellStyles
    "<table width=\"100%\" height=\"" ++ toString finalHeight ++
      "\" cellpadding=\"0\" cellspacing=\"0\" border=\"0\"><tr><td " ++
      (match bgColorHex with
       | some h => "bgcolor=\"" ++ h ++ "\""
       | none => "") ++ " " ++
      (if cellStyles ≠ "" then "style=\"" ++ cellStyles ++ "\"" else "") ++
      ">&nbsp;</td></tr></table>"

/-- `renderText` (code.ts lines 500-514). -/
def renderText (node : SceneNode) (parentBgColor : RgbColor) : String :=
  if strTrim node.characters = "" then ""
  else
    let result := processTextNode node parentBgColor
    let baseStyle := result.1
    let innerHtml := result.2
    if innerHtml = "" then ""
    else
      let textAlign := (if node.textAlignHorizontal = "" then "LEFT"
        else node.textAlignHorizontal).toLower
      let baseStyleCss := styleObjectToCssString baseStyle
      let borderCss := (getBorderStyles node).getD ""
      let tdStyle := sanitizeStyles (cleanZeroValueStyles
        ("text-align:" ++ textAlign ++ ";" ++ baseStyleCss ++ borderCss))
      let tdStyle :=
        if tdStyle ≠ "" ∧ ¬ endsWithSemi tdStyle then tdStyle ++ ";" else tdStyle
      "<table cellpadding=\"0\" cellspacing=\"0\" border=\"0\" width=\"100%\">" ++
        "<tr><td align=\"" ++ textAlign ++ "\" " ++
        (if tdStyle ≠ "" then "style=\"" ++ tdStyle ++ "\"" else "") ++
        ">" ++ innerHtml ++ "</td></tr></table>"

/-- `renderBulletPoint` (code.ts lines 516-530); `isBulletPoint` guarantees
the two text children. -/
def renderBulletPoint (node : SceneNode) (parentBgColor : RgbColor) : String :=
  let bulletNode := node.children.headI
  let textNode := node.children.tail.headI
  let itemSpacing := node.itemSpacing.getD 8
  let bulletResult := processTextNode bulletNode parentBgColor
  let bulletTdStyle :=
    sanitizeStyles ("width:1%;" ++ styleObjectToCssString bulletResult.1)
  let bulletTdStyle :=
    if bulletTdStyle ≠ "" ∧ ¬ endsWithSemi bulletTdStyle then bulletTdStyle ++ ";"
    else bulletTdStyle
  let textResult := processTextNode textNode parentBgColor
  let textTdStyle := sanitizeStyles (styleObjectToCssString textResult.1)
  let textTdStyle :=
    if textTdStyle ≠ "" ∧ ¬ endsWithSemi textTdStyle then textTdStyle ++ ";"
    else textTdStyle
  "<table width=\"100%\" border=\"0\" cellpadding=\"0\" cellspacing=\"0\" " ++
    "role=\"presentation\"><tr><td " ++
    (if bulletTdStyle ≠ "" then "style=\"" ++ bulletTdStyle ++ "\"" else "") ++
    " valign=\"top\">" ++ bulletResult.2 ++ "</td><td width=\"" ++
    qToString itemSpacing ++ "\" style=\"width: " ++ qToString itemSpacing ++
    "px;\">&nbsp;</td><td " ++
    (if textTdStyle ≠ "" then "style=\"" ++ textTdStyle ++ "\"" else "") ++
    " valign=\"top\">" ++ textResult.2 ++ "</td></tr></table>"

/-- `renderImage` (code.ts lines 542-565).  `exportAsync` at double scale and
`figma.base64Encode` are modelled by the node's `exportData` (`none` models a
thrown export error, caught by the `try`). -/
def renderImage (node : SceneNode) (parentWidth : ℚ) (mode : String) : String :=
  if node.width < 1 ∨ node.height < 1 then ""
  else
    let finalWidth := min (jsRound node.width : ℚ) parentWidth
    let altText := if node.name = "" then "Image" else node.name
    if mode = "placeholder" then
      "<img src=\"https://placehold.co/" ++ qToString finalWidth ++ "x" ++
        toString (jsRound node.height) ++ "/EFEFEF/7F7F7F?text=" ++
        qToString finalWidth ++ "x" ++ toString (jsRound node.height) ++
        "\" width=\"" ++ qToString finalWidth ++ "\" alt=\"" ++ altText ++
        "\" style=\"display: block; border: 0; width: 100%; max-width: " ++
        qToString finalWidth ++ "px; height: auto;\" />"
    else
      match node.exportData with
      | none => "<p style=\"color:red;\">Error exporting image: " ++ altText ++ "</p>"
      | some base64String =>
        if mode = "base64" then
          "<img src=\"data:image/png;base64," ++ base64String ++ "\" width=\"" ++
            qToString finalWidth ++ "\" alt=\"" ++ altText ++
            "\" style=\"display: block; border: 0; width: 100%; max-width: " ++
            qToString finalWidth ++ "px; height: auto;\" />"
        else ""

/-- Stable insertion into a `y`-sorted list (earlier-listed nodes stay first
among equal `y`). -/
def insertY (a : SceneNode) : List SceneNode → List SceneNode
  | [] => [a]
  | b :: l => if a.y ≤ b.y then a :: b :: l else b :: insertY a l

/-- The stable JS `children.sort((a, b) => a.y - b.y)`. -/
def sortByY : List SceneNode → List SceneNode
  | [] => []
  | a :: l => insertY a (sortByY l)

/-- The filler row of `getStackedRows` (code.ts line 347). -/
def gapFillerRow (g : ℤ) (colSpan : Nat) : String :=
  "<tr><td height=\"" ++ toString g ++ "\" style=\"height:" ++ toString g ++
    "px; font-size:" ++ toString g ++ "px; line-height:" ++ toString g ++
    "px;\" colspan=\"" ++ toString colSpan ++ "\">&nbsp;</td></tr>"

/-- The colspan-free filler row of code.ts lines 367 and 588. -/
def heightFillerRow (g : ℤ) : String :=
  "<tr><td height=\"" ++ toString g ++ "\" style=\"height:" ++ toString g ++
    "px; font-size:" ++ toString g ++ "px; line-height:" ++ toString g ++
    "px;\">&nbsp;</td></tr>"

/-- A left/right padding gutter cell (code.ts lines 350-351). -/
def gutterCell (p : ℚ) : String :=
  "<td class=\"gutter\" width=\"" ++ qToString p ++ "\" style=\"width: " ++
    qToString p ++ "px;\">&nbsp;</td>"

/-- The top/bottom padding row of `renderContainer` (code.ts lines 456-457
and 494-495). -/
def paddingRowHtml (p : ℤ) (colSpan : Nat) : String :=
  "<tr><td height=\"" ++ toString p ++ "\" style=\"font-size:" ++ toString p ++
    "px; line-height:" ++ toString p ++ "px;\" colspan=\"" ++
    toString colSpan ++ "\">&nbsp;</td></tr>"

/-- The inner loop over one group of consecutive text children (code.ts
lines 361-380): gap fillers within the group, one row per nonempty text
node, and the group's final bottom `y`.  `isFirst` models `index > 0`. -/
def textGroupRows (parentBgColor : RgbColor) :
    List SceneNode → ℚ → Bool → List String × ℚ
  | [], lastY, _ => ([], lastY)
  | textNode :: rest, lastY, isFirst =>
    let gapWithinGroup := jsRound (textNode.y - lastY)
    let gapRows :=
      if isFirst = false ∧ gapWithinGroup > 2 then [heightFillerRow gapWithinGroup]
      else []
    let result := processTextNode textNode parentBgColor
    let contentRows :=
      if result.2 ≠ "" then
        let textAlign := (if textNode.textAlignHorizontal = "" then "LEFT"
          else textNode.textAlignHorizontal).toLower
        let baseStyleCss := styleObjectToCssString result.1
        let borderCss := (getBorderStyles textNode).getD ""
        let tdStyle := sanitizeStyles (cleanZeroValueStyles
          ("text-align:" ++ textAlign ++ ";" ++ baseStyleCss ++ borderCss))
        let tdStyle :=
          if tdStyle ≠ "" ∧ ¬ endsWithSemi tdStyle then tdStyle ++ ";" else tdStyle
        ["<tr><td align=\"" ++ textAlign ++ "\" " ++
          (if tdStyle ≠ "" then "style=\"" ++ tdStyle ++ "\"" else "") ++
          ">" ++ result.2 ++ "</td></tr>"]
      else []
    let restResult := textGroupRows parentBgColor rest (textNode.y + textNode.height) false
    (gapRows ++ contentRows ++ restResult.1, restResult.2)

/-- The main loop of `getStackedRows` (code.ts lines 343-398), recursing on
the remaining children; `render` stands for the mutually recursive
`this.renderNode`.  The `Nat` argument is a structural recursion budget
always instantiated with the list length (the text-group branch drops a
prefix, which Lean cannot see shrink); it never runs out. -/
def stackedChildrenLoop (render : SceneNode → ℚ → RgbColor → String)
    (parentBgColor : RgbColor) (paddingLeft paddingRight : ℚ) (colSpan : Nat)
    (availableWidth : ℚ) : Nat → List SceneNode → ℚ → List String
  | 0, _, _ => []
  | _ + 1, [], _ => []
  | fuel + 1, child :: rest, lastBottomY =>
    let verticalGap := jsRound (child.y - lastBottomY)
    let gapRows := if verticalGap > 2 then [gapFillerRow verticalGap colSpan] else []
    let leftSpacer := if paddingLeft > 0 then gutterCell paddingLeft else ""
    let rightSpacer := if paddingRight > 0 then gutterCell paddingRight else ""
    if child.type = NodeType.text then
      let textGroup := child :: rest.takeWhile (fun c => c.type == NodeType.text)
      let afterGroup := rest.dropWhile (fun c => c.type == NodeType.text)
      let groupResult := textGroupRows parentBgColor textGroup child.y true
      let groupRows :=
        if paddingLeft = 0 ∧ paddingRight = 0 then groupResult.1
        else ["<tr>" ++ leftSpacer ++
          "<td><table width=\"100%\" border=\"0\" cellpadding=\"0\" " ++
          "cellspacing=\"0\" role=\"presentation\">" ++ String.join groupResult.1 ++
          "</table></td>" ++ rightSpacer ++ "</tr>"]
      gapRows ++ groupRows ++ stackedChildrenLoop render parentBgColor paddingLeft
        paddingRight colSpan availableWidth fuel afterGroup groupResult.2
    else
      let childHtml := render child availableWidth parentBgColor
      let childRows :=
        if childHtml ≠ "" then
          ["<tr>" ++ leftSpacer ++ "<td>" ++ childHtml ++ "</td>" ++ rightSpacer ++ "</tr>"]
        else []
      gapRows ++ childRows ++ stackedChildrenLoop render parentBgColor paddingLeft
        paddingRight colSpan availableWidth fuel rest (child.y + child.height)

/-- `getStackedRows` (code.ts lines 315-400). -/
def getStackedRows (render : SceneNode → ℚ → RgbColor → String)
    (parentNode : SceneNode) (parentWidth : ℚ) (parentBgColor : RgbColor) :
    List String :=
  let children := parentNode.children.filter (fun c => c.visible)
  let children :=
    match parentNode.layoutMode with
    | some m => if m ≠ LayoutMode.vertical then sortByY children else children
    | none => children
  if children.isEmpty = true then []
  else
    let paddingLeft := parentNode.paddingLeft.getD 0
    let paddingRight := parentNode.paddingRight.getD 0
    let paddingTop := parentNode.paddingTop.getD 0
    let availableWidth := parentWidth - paddingLeft - paddingRight
    let unwrapped : Option (List String) :=
      match children with
      | [child] =>
        let verticalGap := jsRound (child.y - paddingTop)
        if paddingLeft = 0 ∧ paddingRight = 0 ∧ verticalGap ≤ 2 then
          let childHtml := render child availableWidth parentBgColor
          some (if childHtml ≠ "" then ["<tr><td>" ++ childHtml ++ "</td></tr>"] else [])
        else none
      | _ => none
    match unwrapped with
    | some r => r
    | none =>
      let colSpan := 1 + (if paddingLeft > 0 then 1 else 0) +
        (if paddingRight > 0 then 1 else 0)
      stackedChildrenLoop render parentBgColor paddingLeft paddingRight colSpan
        availableWidth children.length children paddingTop

/-- `renderStackedChildren` (code.ts lines 402-406). -/
def renderStackedChildren (render : SceneNode → ℚ → RgbColor → String)
    (parentNode : SceneNode) (parentWidth : ℚ) (parentBgColor : RgbColor) :
    String :=
  let rows := getStackedRows render parentNode parentWidth parentBgColor
  if rows = [] then ""
  else "<table width=\"100%\" border=\"0\" cellpadding=\"0\" cellspacing=\"0\" " ++
    "role=\"presentation\">" ++ String.join rows ++ "</table>"

/-- The cell loop of the horizontal layout (code.ts lines 478-488); the
per-child `valign` is constant across the loop and passed in. -/
def horizontalCells (render : SceneNode → ℚ → RgbColor → String)
    (effectiveBgRgb : RgbColor) (valign : String) (itemSpacing : ℤ) :
    List SceneNode → List String
  | [] => []
  | child :: rest =>
    let childHtml := render child child.width effectiveBgRgb
    let cell := "<td valign=\"" ++ valign ++ "\">" ++ childHtml ++ "</td>"
    let spacers :=
      if rest.isEmpty = false ∧ itemSpacing > 0 then
        ["<td width=\"" ++ toString itemSpacing ++ "\" style=\"width: " ++
          toString itemSpacing ++ "px;\">&nbsp;</td>"]
      else []
    cell :: spacers ++ horizontalCells render effectiveBgRgb valign itemSpacing rest

/-- `renderContainer` (code.ts lines 408-498); `render` stands for the
mutually recursive `this.renderNode`. -/
def renderContainerCore (render : SceneNode → ℚ → RgbColor → String)
    (useLiteralWidth : Bool) (node : SceneNode) (parentWidth : ℚ)
    (parentBgColor : RgbColor) (isRoot : Bool) : String :=
  let eff := getEffectiveBackgroundColor node parentBgColor
  let bgColorHex := eff.hex
  let effectiveBgRgb := eff.rgb
  let children := node.children.filter (fun c => c.visible)
  if children.isEmpty = true ∧ bgColorHex = none ∧ getBorderStyles node = none then ""
  else
    let layoutMode := (node.layoutMode).getD LayoutMode.noneMode
    let paddingTop : ℤ := match node.paddingTop with
      | some p => jsRound p
      | none => 0
    let paddingBottom : ℤ := match node.paddingBottom with
      | some p => jsRound p
      | none => 0
    let tableStyles := sanitizeStyles (cleanZeroValueStyles (String.intercalate ";"
      (([bgColorHex.map (fun h => "background-color:" ++ h),
         getBorderStyles node]).filterMap id)))
    let tableStyles := if tableStyles ≠ "" then tableStyles ++ ";" else tableStyles
    let width := if isRoot then parentWidth else min node.width parentWidth
    let tableAttributes :=
      if useLiteralWidth then
        "width=\"" ++ qToString width ++ "\" " ++
          (if tableStyles ≠ "" then "style=\"" ++ tableStyles ++ "\"" else "")
      else
        "width=\"100%\" " ++
          (if tableStyles ≠ "" then "style=\"width: 100%; " ++ tableStyles ++ "\""
           else if tableStyles ≠ "" then "style=\"" ++ tableStyles ++ "\"" else "")
    let tableAttributes := tableAttributes ++
      (match bgColorHex with
       | some h => " bgcolor=\"" ++ h ++ "\""
       | none => "")
    if layoutMode ≠ LayoutMode.horizontal then
      let singleUnwrap : Option String :=
        match children with
        | [onlyChild] =>
          if bgColorHex = none ∧ getBorderStyles node = none then
            let paddingLeft := node.paddingLeft.getD 0
            let paddingRight := node.paddingRight.getD 0
            let childGap := onlyChild.y - (paddingTop : ℚ)
            if paddingLeft = 0 ∧ paddingRight = 0 ∧ childGap ≤ 2 ∧
                paddingTop = 0 ∧ paddingBottom = 0 ∧ isRoot = false then
              some (render onlyChild parentWidth parentBgColor)
            else none
          else none
        | _ => none
      match singleUnwrap with
      | some r => r
      | none =>
        let rows := getStackedRows render node parentWidth effectiveBgRgb
        if rows = [] ∧ bgColorHex = none ∧ getBorderStyles node = none then ""
        else
          let paddingLeft := node.paddingLeft.getD 0
          let paddingRight := node.paddingRight.getD 0
          let colSpan := 1 + (if paddingLeft > 0 then 1 else 0) +
            (if paddingRight > 0 then 1 else 0)
          let paddingTopHtml :=
            if paddingTop > 0 then paddingRowHtml paddingTop colSpan else ""
          let paddingBottomHtml :=
            if paddingBottom > 0 then paddingRowHtml paddingBottom colSpan else ""
          "<table " ++ tableAttributes ++
            " cellpadding=\"0\" cellspacing=\"0\" border=\"0\" role=\"presentation\">" ++
            paddingTopHtml ++ String.join rows ++ paddingBottomHtml ++ "</table>"
    else
      let horizontalChildren := node.children.filter (fun c => c.visible)
      let itemSpacing : ℤ := match node.itemSpacing with
        | some v => jsRound v
        | none => 0
      let paddingLeft := node.paddingLeft.getD 0
      let paddingRight := node.paddingRight.getD 0
      let spacerCount :=
        if horizontalChildren.length > 1 then horizontalChildren.length - 1 else 0
      let colSpan := horizontalChildren.length + spacerCount +
        (if paddingLeft > 0 then 1 else 0) + (if paddingRight > 0 then 1 else 0)
      let valign :=
        if node.counterAxisAlignItems = "CENTER" then "middle"
        else if node.counterAxisAlignItems = "MAX" then "bottom"
        else "top"
      let leftCells :=
        if paddingLeft > 0 then
          ["<td width=\"" ++ qToString paddingLeft ++ "\" style=\"width: " ++
            qToString paddingLeft ++ "px;\">&nbsp;</td>"]
        else []
      let rightCells :=
        if paddingRight > 0 then
          ["<td width=\"" ++ qToString paddingRight ++ "\" style=\"width: " ++
            qToString paddingRight ++ "px;\">&nbsp;</td>"]
        else []
      let cells := leftCells ++
        horizontalCells render effectiveBgRgb valign itemSpacing horizontalChildren ++
        rightCells
      let paddingTopHtml :=
        if paddingTop > 0 then paddingRowHtml paddingTop colSpan else ""
      let paddingBottomHtml :=
        if paddingBottom > 0 then paddingRowHtml paddingBottom colSpan else ""
      "<table " ++ tableAttributes ++
        " cellpadding=\"0\" cellspacing=\"0\" border=\"0\" role=\"presentation\">" ++
        paddingTopHtml ++ "<tr>" ++ String.join cells ++ "</tr>" ++
        paddingBottomHtml ++ "</table>"

/-- `renderNode` (code.ts lines 291-313): visibility and zero-opacity
pruning, image dispatch, then kind dispatch.  `render` stands for the
recursive call and `isImgLike` for `isImageLikeNode`. -/
def renderNodeCore (render : SceneNode → ℚ → RgbColor → String)
    (isImgLike : SceneNode → Bool) (useLiteralWidth : Bool) (mode : String)
    (node : SceneNode) (parentWidth : ℚ) (parentBgColor : RgbColor) : String :=
  if node.visible = false then ""
  else if node.hasOpacity = true ∧ node.opacity = 0 then ""
  else if isImgLike node then renderImage node parentWidth mode
  else
    match node.type with
    | .frame | .group | .component | .inst =>
      if isBulletPoint node then renderBulletPoint node parentBgColor
      else renderContainerCore render useLiteralWidth node parentWidth parentBgColor false
    | .rectangle | .ellipse => renderShape node parentBgColor
    | .text => renderText node parentBgColor
    | _ => ""

/-- The recursive `renderNode`, by fuel (any fuel at least the tree height
is exact; each level consumes one unit). -/
def renderNodeF (useLiteralWidth : Bool) (mode : String) :
    Nat → SceneNode → ℚ → RgbColor → String
  | 0, _, _, _ => ""
  | fuel + 1, node, parentWidth, parentBgColor =>
    renderNodeCore (renderNodeF useLiteralWidth mode fuel)
      (isImageLikeNode (fuel + 1)) useLiteralWidth mode node parentWidth parentBgColor

/-- The loop of the multi-node `parse` path (code.ts lines 585-599). -/
def parseLoop (render : SceneNode → ℚ → RgbColor → String)
    (rootBgColor : RgbColor) : List SceneNode → ℚ → Bool → List String
  | [], _, _ => []
  | node :: rest, lastBottomY, isFirst =>
    let gapRows :=
      if isFirst = false then
        let gap := jsRound (node.y - lastBottomY)
        if gap > 2 then [heightFillerRow gap] else []
      else []
    let nodeHtml := render node node.width rootBgColor
    let contentRows :=
      if strTrim nodeHtml ≠ "" then ["<tr><td>" ++ nodeHtml ++ "</td></tr>"] else []
    let newLast := if node.visible then node.y + node.height else lastBottomY
    gapRows ++ contentRows ++ parseLoop render rootBgColor rest newLast false

/-- `parse` (code.ts lines 567-602). -/
def parse (fuel : Nat) (useLiteralWidth : Bool) (nodes : List SceneNode)
    (mode : String) : String :=
  if nodes.isEmpty = true then ""
  else
    let rootBgColor : RgbColor := ⟨1, 1, 1⟩
    match nodes with
    | [node] =>
      let isRootSelection := node.parentIsPage
      if node.type = NodeType.frame ∨ node.type = NodeType.component ∨
          node.type = NodeType.inst then
        renderContainerCore (renderNodeF useLiteralWidth mode fuel) useLiteralWidth
          node node.width rootBgColor isRootSelection
      else
        renderNodeF useLiteralWidth mode (fuel + 1) node node.width rootBgColor
    | _ =>
      let sortedNodes := sortByY nodes
      let lastBottomY := sortedNodes.headI.y
      String.join (parseLoop (renderNodeF useLiteralWidth mode fuel) rootBgColor
        sortedNodes lastBottomY true)

/-- A `{name, bytes}` asset as the spec describes them. -/
structure ImageAsset where
  name : String
  bytes : List Nat
deriving DecidableEq

/-- `processSelection` (code.ts lines 615-635): the `{html, assets}` payload
posted back to the UI.  The asset list is the literal `assets: []` of
line 632. -/
def processSelection (fuel : Nat) (selection : List SceneNode) (mode : String)
    (useLiteralWidth : Bool) : String × List ImageAsset :=
  if selection.isEmpty = true then ("", [])
  else (parse fuel useLiteralWidth selection mode, [])

/-- Shared attributes for the concrete example nodes. -/
def baseData : NodeData :=
  { type := NodeType.rectangle, visible := true, hasOpacity := true, opacity := 1,
    x := 0, y := 0, width := 100, height := 20, name := "", fills := none,
    strokes := [], strokeWeight := none, layoutMode := none, paddingLeft := none,
    paddingRight := none, paddingTop := none, paddingBottom := none,
    itemSpacing := none, counterAxisAlignItems := "MIN", characters := "",
    segments := [], textAlignHorizontal := "", exportData := none,
    ancestorBg := ⟨1, 1, 1⟩, parentIsPage := false }

/-- A regular-weight Inter run. -/
def segReg (chars : String) : TextSegment :=
  { fontName := some ⟨"Inter", "Regular"⟩, fontNameIsMixed := false,
    fontSize := some 16, fills := [], lineHeight := LineHeight.auto,
    textDecoration := "NONE", characters := chars }

/-- A bold Inter run, otherwise identical to `segReg`. -/
def segBold (chars : String) : TextSegment :=
  { segReg chars with fontName := some ⟨"Inter", "Bold"⟩ }

/-- A text node whose second run differs from the base style only in
font-weight 700. -/
def boldRunTextNode : SceneNode :=
  SceneNode.mk
    { baseData with
      type := NodeType.text
      characters := "hello worldx"
      segments := [segReg "hello world", segBold "x"] } []

/-- Runs of character counts 3, 5, 2 over styles A, B, A: the two styles tie
at five accumulated characters. -/
def tieTextNode : SceneNode :=
  SceneNode.mk
    { baseData with
      type := NodeType.text
      characters := "aaabbbbbcc"
      segments := [segReg "aaa", segBold "bbbbb", segReg "cc"] } []

/-- Runs of character counts 10, 3, 7 over styles A, B, A (the spec's
base-style dominance example). -/
def dominanceTextNode : SceneNode :=
  SceneNode.mk
    { baseData with
      type := NodeType.text
      characters := "aaaaaaaaaabbbccccccc"
      segments := [segReg "aaaaaaaaaa", segBold "bbb", segReg "ccccccc"] } []

/-- The total character count a style map accumulates over a run list. -/
def totalCount (s : List (String × String))
    (segs : List (List (String × String) × Nat)) : Nat :=
  ((segs.filter (fun kv => kv.1 == s)).map Prod.snd).sum

/-- The invariant the base-style tally maintains: stored counts equal the
accumulated totals over the processed prefix, the running maximum bounds
every total, and the most-common slot holds a seen style whose total equals
the maximum. -/
structure TallyInv (processed : List (List (String × String) × Nat))
    (st : BaseStyleState) : Prop where
  counts_eq : ∀ k, jsGet st.styleCounts k =
    (if processed.any (fun kv => kv.1 == k) then some (totalCount k processed)
     else none)
  le_max : ∀ kv ∈ processed, (totalCount kv.1 processed : ℤ) ≤ st.maxCount
  mc_max : processed ≠ [] →
    processed.any (fun kv => kv.1 == st.mostCommonStyle) = true ∧
    (totalCount st.mostCommonStyle processed : ℤ) = st.maxCount
  empty_max : processed = [] → st.maxCount < 0

/-- A one-run text child for the bullet examples. -/
def bulletTextChild (chars : String) : SceneNode :=
  SceneNode.mk
    { baseData with
      type := NodeType.text
      characters := chars
      segments := [segReg chars] } []

/-- A horizontal FRAME of two text children whose first child trims to a
single recognized bullet glyph. -/
def bulletFrameNode : SceneNode :=
  SceneNode.mk
    { baseData with
      type := NodeType.frame
      layoutMode := some LayoutMode.horizontal
      itemSpacing := some 8 }
    [bulletTextChild "•", bulletTextChild "item"]

/-- The same two-text-child horizontal container as a COMPONENT. -/
def bulletComponentNode : SceneNode :=
  SceneNode.mk
    { baseData with
      type := NodeType.component
      layoutMode := some LayoutMode.horizontal
      itemSpacing := some 8 }
    [bulletTextChild "•", bulletTextChild "item"]

/-- A horizontal FRAME whose first text child trims to two bullet glyphs. -/
def doubleBulletFrameNode : SceneNode :=
  SceneNode.mk
    { baseData with
      type := NodeType.frame
      layoutMode := some LayoutMode.horizontal
      itemSpacing := some 8 }
    [bulletTextChild "••", bulletTextChild "item"]

/-- A 100 by 50 rectangle with an image fill whose raster export succeeds. -/
def imageRectNode : SceneNode :=
  SceneNode.mk
    { baseData with
      height := 50
      name := "Hero"
      fills := some [Paint.image true]
      exportData := some "QUJD" } []

/-- A plain 100-wide rectangle at vertical position `y` with height `h`. -/
def rectNode (y h : ℚ) : SceneNode :=
  SceneNode.mk
    { baseData with
      y := y
      height := h } []

/-- A vertical auto-layout frame with the given children and no padding. -/
def vstackFrame (children : List SceneNode) : SceneNode :=
  SceneNode.mk
    { baseData with
      type := NodeType.frame
      layoutMode := some LayoutMode.vertical
      height := 60 } children

/-- An invisible rectangle root (y 50, height 7). -/
def invisRect : SceneNode :=
  SceneNode.mk
    { baseData with
      visible := false
      y := 50
      height := 7 } []


-- ===== Theorems =====

theorem splitOnChar_ne_nil (c : Char) (l : List Char) : splitOnChar c l ≠ [] := by
  cases l with
  | nil => simp [splitOnChar]
  | cons x xs =>
    simp only [splitOnChar]
    rcases h : splitOnChar c xs with _ | ⟨h', t⟩
    · simp
    · by_cases hx : x = c <;> simp [hx]

theorem splitOnChar_cons (c x : Char) (xs : List Char) (hd : List Char)
    (t : List (List Char)) (h : splitOnChar c xs = hd :: t) :
    splitOnChar c (x :: xs) = if x = c then [] :: hd :: t else (x :: hd) :: t := by
  simp [splitOnChar, h]

theorem mem_splitOnChar_not_mem (c : Char) (l : List Char) :
    ∀ p ∈ splitOnChar c l, c ∉ p := by
  induction l with
  | nil => simp [splitOnChar]
  | cons x xs ih =>
    intro p hp
    rcases h : splitOnChar c xs with _ | ⟨hd, t⟩
    · exact absurd h (splitOnChar_ne_nil c xs)
    · rw [splitOnChar_cons c x xs hd t h] at hp
      by_cases hx : x = c
      · rw [if_pos hx] at hp
        rcases List.mem_cons.mp hp with hp | hp
        · simp [hp]
        · exact ih p (h ▸ hp)
      · rw [if_neg hx] at hp
        rcases List.mem_cons.mp hp with hp | hp
        · subst hp
          intro hc
          rcases List.mem_cons.mp hc with hc | hc
          · exact hx hc.symm
          · exact ih hd (h ▸ List.mem_cons_self _ _) hc
        · exact ih p (h ▸ List.mem_cons.mpr (Or.inr hp))

theorem mem_of_mem_splitOnChar (c : Char) (l : List Char) :
    ∀ p ∈ splitOnChar c l, ∀ x ∈ p, x ∈ l := by
  induction l with
  | nil => simp [splitOnChar]
  | cons y ys ih =>
    intro p hp x hx
    rcases h : splitOnChar c ys with _ | ⟨hd, t⟩
    · exact absurd h (splitOnChar_ne_nil c ys)
    · rw [splitOnChar_cons c y ys hd t h] at hp
      by_cases hy : y = c
      · rw [if_pos hy] at hp
        rcases List.mem_cons.mp hp with hp | hp
        · subst hp; cases hx
        · exact List.mem_cons.mpr (Or.inr (ih p (h ▸ hp) x hx))
      · rw [if_neg hy] at hp
        rcases List.mem_cons.mp hp with hp | hp
        · subst hp
          rcases List.mem_cons.mp hx with hx | hx
          · exact List.mem_cons.mpr (Or.inl hx)
          · exact List.mem_cons.mpr
              (Or.inr (ih hd (h ▸ List.mem_cons_self _ _) x hx))
        · exact List.mem_cons.mpr
            (Or.inr (ih p (h ▸ List.mem_cons.mpr (Or.inr hp)) x hx))

theorem joinWithChar_splitOnChar (c : Char) (l : List Char) :
    joinWithChar c (splitOnChar c l) = l := by
  induction l with
  | nil => simp [splitOnChar, joinWithChar]
  | cons x xs ih =>
    rcases h : splitOnChar c xs with _ | ⟨hd, t⟩
    · exact absurd h (splitOnChar_ne_nil c xs)
    · rw [h] at ih
      rw [splitOnChar_cons c x xs hd t h]
      by_cases hx : x = c
      · subst hx
        simp only [if_pos rfl]
        cases t with
        | nil => simpa [joinWithChar] using congrArg (x :: ·) ih
        | cons t0 ts => simpa [joinWithChar] using congrArg (x :: ·) ih
      · rw [if_neg hx]
        cases t with
        | nil => simpa [joinWithChar] using congrArg (x :: ·) ih
        | cons t0 ts => simpa [joinWithChar] using congrArg (x :: ·) ih

theorem splitOnChar_of_not_mem {c : Char} {p : List Char} (hp : c ∉ p) :
    splitOnChar c p = [p] := by
  induction p with
  | nil => simp [splitOnChar]
  | cons x xs ih =>
    have hx : x ≠ c := fun h => hp (h ▸ List.mem_cons_self _ _)
    have hxs : c ∉ xs := fun h => hp (List.mem_cons.mpr (Or.inr h))
    rw [splitOnChar_cons c x xs xs [] (ih hxs), if_neg hx]

theorem splitOnChar_append_cons {c : Char} {p : List Char} (hp : c ∉ p)
    (rest : List Char) :
    splitOnChar c (p ++ c :: rest) = p :: splitOnChar c rest := by
  induction p with
  | nil =>
    rcases h : splitOnChar c rest with _ | ⟨hd, t⟩
    · exact absurd h (splitOnChar_ne_nil c rest)
    · simp [splitOnChar_cons c c rest hd t h, h]
  | cons x xs ih =>
    have hx : x ≠ c := fun h => hp (h ▸ List.mem_cons_self _ _)
    have hxs : c ∉ xs := fun h => hp (List.mem_cons.mpr (Or.inr h))
    have hstep := ih hxs
    rcases h : splitOnChar c rest with _ | ⟨hd, t⟩
    · exact absurd h (splitOnChar_ne_nil c rest)
    · rw [h] at hstep
      simp [splitOnChar_cons c x (xs ++ c :: rest) xs (hd :: t) hstep, hx, h]

theorem splitOnChar_joinWithChar (c : Char) (parts : List (List Char))
    (hne : parts ≠ []) (hfree : ∀ p ∈ parts, c ∉ p) :
    splitOnChar c (joinWithChar c parts) = parts := by
  induction parts with
  | nil => exact absurd rfl hne
  | cons p ps ih =>
    cases ps with
    | nil =>
      simp [joinWithChar, splitOnChar_of_not_mem (hfree p (List.mem_cons_self _ _))]
    | cons q qs =>
      have hp : c ∉ p := hfree p (List.mem_cons_self _ _)
      have hps : ∀ r ∈ q :: qs, c ∉ r := fun r hr =>
        hfree r (List.mem_cons.mpr (Or.inr hr))
      have hind := ih (by simp) hps
      simp only [joinWithChar]
      rw [splitOnChar_append_cons hp, hind]

theorem trimChars_sublist (l : List Char) : (trimChars l).Sublist l :=
  ((List.rdropWhile_prefix _ _).sublist).trans (List.dropWhile_sublist _)

theorem mem_of_mem_trimChars {l : List Char} {x : Char}
    (h : x ∈ trimChars l) : x ∈ l :=
  (trimChars_sublist l).subset h

theorem trimChars_eq_nil_iff (l : List Char) :
    trimChars l = [] ↔ ∀ x ∈ l, x.isWhitespace := by
  unfold trimChars
  rw [List.rdropWhile_eq_nil_iff]
  constructor
  · intro h x hx
    by_cases hmem : x ∈ l.dropWhile Char.isWhitespace
    · exact h x hmem
    · -- x was removed by the first pass, whose removed elements satisfy the predicate
      have hsplit : l.takeWhile Char.isWhitespace ++ l.dropWhile Char.isWhitespace = l :=
        List.takeWhile_append_dropWhile Char.isWhitespace l
      rw [← hsplit] at hx
      rcases List.mem_append.mp hx with hx | hx
      · exact List.mem_takeWhile_imp hx
      · exact absurd hx hmem
  · intro h x hx
    exact h x ((List.dropWhile_sublist _).subset hx)

theorem trimChars_idem (l : List Char) : trimChars (trimChars l) = trimChars l := by
  unfold trimChars
  have hinner : (List.rdropWhile Char.isWhitespace
      (l.dropWhile Char.isWhitespace)).dropWhile Char.isWhitespace
      = List.rdropWhile Char.isWhitespace (l.dropWhile Char.isWhitespace) := by
    rw [List.dropWhile_eq_self_iff]
    intro hl
    have hpre := List.rdropWhile_prefix Char.isWhitespace (l.dropWhile Char.isWhitespace)
    have hlen : 0 < (l.dropWhile Char.isWhitespace).length :=
      lt_of_lt_of_le hl hpre.length_le
    have hhead := List.dropWhile_get_zero_not Char.isWhitespace l hlen
    have heq : (List.rdropWhile Char.isWhitespace
        (l.dropWhile Char.isWhitespace)).get ⟨0, hl⟩
        = (l.dropWhile Char.isWhitespace).get ⟨0, hlen⟩ := by
      have := List.IsPrefix.getElem hpre (by simpa using hl)
      simpa [List.get_eq_getElem] using this
    rw [heq]
    exact hhead
  rw [hinner, List.rdropWhile_idempotent]

theorem mem_joinWithChar (c : Char) (parts : List (List Char)) :
    ∀ x ∈ joinWithChar c parts, x = c ∨ ∃ p ∈ parts, x ∈ p := by
  induction parts with
  | nil => simp [joinWithChar]
  | cons p ps ih =>
    cases ps with
    | nil =>
      intro x hx
      exact Or.inr ⟨p, List.mem_cons_self _ _, by simpa [joinWithChar] using hx⟩
    | cons q qs =>
      intro x hx
      simp only [joinWithChar] at hx
      rcases List.mem_append.mp hx with hx | hx
      · exact Or.inr ⟨p, List.mem_cons_self _ _, hx⟩
      · rcases List.mem_cons.mp hx with hx | hx
        · exact Or.inl hx
        · rcases ih x hx with hc | ⟨r, hr, hxr⟩
          · exact Or.inl hc
          · exact Or.inr ⟨r, List.mem_cons.mpr (Or.inr hr), hxr⟩

theorem joinWithChar_ne_nil_of_head_ne_nil {c : Char} {p : List Char}
    (hp : p ≠ []) (ps : List (List Char)) : joinWithChar c (p :: ps) ≠ [] := by
  cases ps with
  | nil => simpa [joinWithChar] using hp
  | cons q qs => simp [joinWithChar, hp]

theorem mapSet_of_not_mem {m : List (List Char × List Char)} {k : List Char}
    (hk : k ∉ m.map Prod.fst) (v : List Char) : mapSet m k v = m ++ [(k, v)] := by
  unfold mapSet
  rw [if_neg]
  intro hany
  rcases List.any_eq_true.mp hany with ⟨kv, hkv, he⟩
  exact hk (List.mem_map.mpr ⟨kv, hkv, eq_of_beq he⟩)

theorem mapSet_keys (m : List (List Char × List Char)) (k v : List Char) :
    (mapSet m k v).map Prod.fst =
      if m.any (fun kv => kv.1 == k) then m.map Prod.fst
      else m.map Prod.fst ++ [k] := by
  unfold mapSet
  split
  · rw [List.map_map]
    exact List.map_congr_left fun kv _ => by
      by_cases h : kv.1 = k <;> simp [h]
  · simp

theorem mapSet_keys_nodup {m : List (List Char × List Char)} {k v : List Char}
    (hnd : (m.map Prod.fst).Nodup) : ((mapSet m k v).map Prod.fst).Nodup := by
  rw [mapSet_keys]
  split
  · exact hnd
  · next hany =>
    have hk : k ∉ m.map Prod.fst := by
      intro hmem
      rcases List.mem_map.mp hmem with ⟨kv, hkv, he⟩
      exact hany (List.any_eq_true.mpr ⟨kv, hkv, beq_iff_eq.mpr he⟩)
    refine List.Nodup.append hnd (List.nodup_singleton k) ?_
    intro a ha hb
    rw [List.mem_singleton] at hb
    subst hb
    exact hk ha

theorem mapSet_forall {P Q : List Char → Prop} {m : List (List Char × List Char)}
    {k v : List Char} (hm : ∀ e ∈ m, P e.1 ∧ Q e.2) (hk : P k) (hv : Q v) :
    ∀ e ∈ mapSet m k v, P e.1 ∧ Q e.2 := by
  intro e he
  unfold mapSet at he
  split at he
  · rcases List.mem_map.mp he with ⟨kv, hkv, hrepl⟩
    by_cases hkk : kv.1 == k
    · rw [if_pos hkk] at hrepl
      subst hrepl
      exact ⟨(hm kv hkv).1, hv⟩
    · rw [if_neg hkk] at hrepl
      subst hrepl
      exact hm kv hkv
  · rcases List.mem_append.mp he with he | he
    · exact hm e he
    · rcases List.mem_singleton.mp he with rfl
      exact ⟨hk, hv⟩

theorem sanitizeStep_good {acc : List (List Char × List Char)} {rule : List Char}
    (hsemi : ';' ∉ rule)
    (hkey : (splitOnChar ':' rule).headI = [] ∨
      trimChars (splitOnChar ':' rule).headI ≠ [])
    (hacc : ∀ e ∈ acc, GoodKey e.1 ∧ GoodVal e.2) :
    ∀ e ∈ sanitizeStep acc rule, GoodKey e.1 ∧ GoodVal e.2 := by
  intro e he
  unfold sanitizeStep at he
  rcases hsplit : splitOnChar ':' rule with _ | ⟨key, vp⟩
  · exact absurd hsplit (splitOnChar_ne_nil ':' rule)
  · rw [hsplit] at he
    simp only at he
    by_cases hguard : key = [] ∨ trimChars (joinWithChar ':' vp) = []
    · rw [if_pos hguard] at he
      exact hacc e he
    · rw [if_neg hguard] at he
      push_neg at hguard
      have hkeymem : key ∈ splitOnChar ':' rule := hsplit ▸ List.mem_cons_self _ _
      have hkcolon : ':' ∉ key := mem_splitOnChar_not_mem ':' rule key hkeymem
      have hkeyrule : ∀ x ∈ key, x ∈ rule := mem_of_mem_splitOnChar ':' rule key hkeymem
      have hktrim : ':' ∉ trimChars key ∧ ';' ∉ trimChars key := by
        constructor
        · exact fun h => hkcolon (mem_of_mem_trimChars h)
        · exact fun h => hsemi (hkeyrule _ (mem_of_mem_trimChars h))
      have hkne : trimChars key ≠ [] := by
        rcases hkey with hkey | hkey
        · rw [hsplit] at hkey
          exact absurd hkey hguard.1
        · rw [hsplit] at hkey
          exact hkey
      have hvsemi : ';' ∉ trimChars (joinWithChar ':' vp) := by
        intro h
        have h1 := mem_of_mem_trimChars h
        rcases mem_joinWithChar ':' vp _ h1 with hc | ⟨p, hp, hxp⟩
        · exact absurd hc (by decide)
        · have hpmem : p ∈ splitOnChar ':' rule := hsplit ▸ List.mem_cons.mpr (Or.inr hp)
          exact hsemi (mem_of_mem_splitOnChar ':' rule p hpmem _ hxp)
      refine mapSet_forall hacc ⟨hktrim.1, hktrim.2, trimChars_idem key, hkne⟩
        ⟨hvsemi, trimChars_idem _, hguard.2⟩ e he

theorem foldl_sanitizeStep_good (rules : List (List Char)) :
    ∀ acc, (∀ r ∈ rules, ';' ∉ r) →
    (∀ r ∈ rules, (splitOnChar ':' r).headI = [] ∨
      trimChars (splitOnChar ':' r).headI ≠ []) →
    (∀ e ∈ acc, GoodKey e.1 ∧ GoodVal e.2) →
    ∀ e ∈ rules.foldl sanitizeStep acc, GoodKey e.1 ∧ GoodVal e.2 := by
  induction rules with
  | nil => intro acc _ _ hacc; simpa using hacc
  | cons r rest ih =>
    intro acc hsemi hkey hacc
    rw [List.foldl_cons]
    exact ih _ (fun x hx => hsemi x (List.mem_cons.mpr (Or.inr hx)))
      (fun x hx => hkey x (List.mem_cons.mpr (Or.inr hx)))
      (sanitizeStep_good (hsemi r (List.mem_cons_self _ _))
        (hkey r (List.mem_cons_self _ _)) hacc)

theorem sanitizeStep_keys_nodup {acc : List (List Char × List Char)}
    {rule : List Char} (hnd : (acc.map Prod.fst).Nodup) :
    ((sanitizeStep acc rule).map Prod.fst).Nodup := by
  unfold sanitizeStep
  rcases hsplit : splitOnChar ':' rule with _ | ⟨key, vp⟩
  · exact hnd
  · simp only
    split
    · exact hnd
    · exact mapSet_keys_nodup hnd

theorem foldl_sanitizeStep_keys_nodup (rules : List (List Char)) :
    ∀ acc, (acc.map Prod.fst).Nodup →
    ((rules.foldl sanitizeStep acc).map Prod.fst).Nodup := by
  induction rules with
  | nil => intro acc hacc; simpa using hacc
  | cons r rest ih =>
    intro acc hacc
    rw [List.foldl_cons]
    exact ih _ (sanitizeStep_keys_nodup hacc)

theorem sanitizeStep_entryChars (acc : List (List Char × List Char))
    {k v : List Char} (hk : GoodKey k) (hv : GoodVal v) :
    sanitizeStep acc (entryChars (k, v)) = mapSet acc k v := by
  unfold sanitizeStep entryChars
  rw [splitOnChar_append_cons hk.1]
  simp only
  rw [joinWithChar_splitOnChar ':' v, hv.2.1, if_neg, hk.2.2.1]
  · intro h
    rcases h with h | h
    · exact hk.2.2.2 h
    · exact hv.2.2 h

theorem foldl_sanitizeStep_entryChars (m : List (List Char × List Char)) :
    ∀ acc, (∀ e ∈ m, GoodKey e.1 ∧ GoodVal e.2) →
    (m.map entryChars).foldl sanitizeStep acc =
      m.foldl (fun a kv => mapSet a kv.1 kv.2) acc := by
  induction m with
  | nil => intro acc _; rfl
  | cons kv rest ih =>
    intro acc hm
    rw [List.map_cons, List.foldl_cons, List.foldl_cons]
    have hkv := hm kv (List.mem_cons_self _ _)
    have : sanitizeStep acc (entryChars kv) = mapSet acc kv.1 kv.2 := by
      have := sanitizeStep_entryChars acc (k := kv.1) (v := kv.2) hkv.1 hkv.2
      simpa using this
    rw [this]
    exact ih _ (fun e he => hm e (List.mem_cons.mpr (Or.inr he)))

theorem foldl_mapSet_self (m : List (List Char × List Char)) :
    ∀ acc, (((acc ++ m).map Prod.fst).Nodup) →
    m.foldl (fun a kv => mapSet a kv.1 kv.2) acc = acc ++ m := by
  induction m with
  | nil => intro acc _; simp
  | cons kv rest ih =>
    intro acc hnd
    have hnotmem : kv.1 ∉ acc.map Prod.fst := by
      rw [List.map_append] at hnd
      intro hmem
      exact ((List.nodup_append.mp hnd).2.2 hmem) (by simp)
    rw [List.foldl_cons]
    have hstep : mapSet acc kv.1 kv.2 = acc ++ [kv] := by
      have := mapSet_of_not_mem hnotmem kv.2
      simpa using this
    rw [hstep]
    have hassoc : (acc ++ [kv]) ++ rest = acc ++ kv :: rest := by simp
    have := ih (acc ++ [kv]) (by rw [hassoc]; exact hnd)
    rw [this, hassoc]

theorem semi_not_mem_entryChars {e : List Char × List Char}
    (he : GoodKey e.1 ∧ GoodVal e.2) : ';' ∉ entryChars e := by
  intro hx
  rcases List.mem_append.mp hx with hx | hx
  · exact he.1.2.1 hx
  · rcases List.mem_cons.mp hx with hx | hx
    · exact absurd hx (by decide)
    · exact he.2.1 hx

theorem trim_entryChars_ne_nil (e : List Char × List Char) :
    trimChars (entryChars e) ≠ [] := by
  intro h
  have := (trimChars_eq_nil_iff _).mp h ':' (by simp [entryChars])
  exact absurd this (by decide)

/-- Re-sanitizing a serialized good style map is the identity. -/
theorem sanitizeStyles_fixed (m : List (List Char × List Char))
    (hgood : ∀ e ∈ m, GoodKey e.1 ∧ GoodVal e.2)
    (hnodup : (m.map Prod.fst).Nodup) :
    sanitizeStyles ⟨joinWithChar ';' (m.map entryChars)⟩ =
      ⟨joinWithChar ';' (m.map entryChars)⟩ := by
  cases m with
  | nil => rfl
  | cons e0 m' =>
    have hgood0 := hgood e0 (List.mem_cons_self _ _)
    have hpiece_ne : entryChars e0 ≠ [] := by simp [entryChars]
    have hdata_ne : joinWithChar ';' ((e0 :: m').map entryChars) ≠ [] := by
      rw [List.map_cons]
      exact joinWithChar_ne_nil_of_head_ne_nil (by simp [entryChars]) _
    have hne : (⟨joinWithChar ';' ((e0 :: m').map entryChars)⟩ : String) ≠ "" := by
      intro hcon
      exact hdata_ne (congrArg String.data hcon)
    rw [sanitizeStyles, if_neg hne]
    have hsplit : splitOnChar ';' (joinWithChar ';' ((e0 :: m').map entryChars)) =
        (e0 :: m').map entryChars := by
      refine splitOnChar_joinWithChar ';' _ (by simp) ?_
      intro p hp
      rcases List.mem_map.mp hp with ⟨e, he, rfl⟩
      exact semi_not_mem_entryChars (hgood e he)
    have hfilter : ((e0 :: m').map entryChars).filter
        (fun rule => decide (trimChars rule ≠ [])) = (e0 :: m').map entryChars := by
      refine List.filter_eq_self.mpr ?_
      intro p hp
      rcases List.mem_map.mp hp with ⟨e, _, rfl⟩
      exact decide_eq_true (trim_entryChars_ne_nil e)
    simp only [hsplit, hfilter, sanitizeRules]
    rw [foldl_sanitizeStep_entryChars _ _ hgood,
      foldl_mapSet_self _ [] (by simpa using hnodup)]
    simp

/-- `sanitizeStyles` is idempotent on style strings in which no rule has a
nonempty key consisting only of whitespace (such a key is stored with its name
trimmed to the empty string, which the second pass then drops). -/
theorem sanitizeStyles_idempotent (s : String)
    (H : ∀ r ∈ splitOnChar ';' s.data, (splitOnChar ':' r).headI = [] ∨
      trimChars (splitOnChar ':' r).headI ≠ []) :
    sanitizeStyles (sanitizeStyles s) = sanitizeStyles s := by
  by_cases hs : s = ""
  · subst hs; rfl
  · have hout : sanitizeStyles s =
        ⟨joinWithChar ';' ((sanitizeRules ((splitOnChar ';' s.data).filter
          (fun rule => trimChars rule ≠ []))).map entryChars)⟩ := by
      rw [sanitizeStyles, if_neg hs]
    have hsemi : ∀ r ∈ (splitOnChar ';' s.data).filter
        (fun rule => trimChars rule ≠ []), ';' ∉ r := fun r hr =>
      mem_splitOnChar_not_mem ';' s.data r (List.mem_of_mem_filter hr)
    have hkeys : ∀ r ∈ (splitOnChar ';' s.data).filter
        (fun rule => trimChars rule ≠ []),
        (splitOnChar ':' r).headI = [] ∨ trimChars (splitOnChar ':' r).headI ≠ [] :=
      fun r hr => H r (List.mem_of_mem_filter hr)
    have hgood := foldl_sanitizeStep_good _ [] hsemi hkeys (by simp)
    have hnodup := foldl_sanitizeStep_keys_nodup
      ((splitOnChar ';' s.data).filter (fun rule => trimChars rule ≠ [])) [] (by simp)
    rw [hout]
    exact sanitizeStyles_fixed _ hgood hnodup

theorem isZeroValue_iff (v : List Char) :
    isZeroValue v = true ↔ ZeroValuedDecl v := by
  simp only [isZeroValue, ZeroValuedDecl, Bool.or_eq_true, beq_iff_eq]
  tauto

theorem cleanKeepRule_iff (rule : List Char) :
    cleanKeepRule rule = true ↔
      (trimChars rule ≠ [] ∧
        ∀ key value rest,
          (splitOnChar ':' rule).map trimChars = key :: value :: rest →
          value ≠ [] → ¬ DroppedDecl key value) := by
  unfold cleanKeepRule
  by_cases h0 : trimChars rule = []
  · simp [h0]
  · rw [if_neg h0]
    rcases hp : (splitOnChar ':' rule).map trimChars with _ | ⟨key, tail⟩
    · simp [h0]
    · rcases tail with _ | ⟨value, rest⟩
      · simp [h0]
      · by_cases hv : value = []
        · subst hv
          simp only [if_pos rfl]
          constructor
          · intro _
            refine ⟨h0, ?_⟩
            intro key' value' rest' heq hne
            injection heq with h1 h2
            injection h2 with h2 _
            exact absurd h2.symm hne
          · intro _; rfl
        · simp only []
          rw [if_neg hv]
          have hcond : (containsSeq key "border-radius".data
              || (("padding".data.isPrefixOf key || "margin".data.isPrefixOf key
                || "border".data.isPrefixOf key) && isZeroValue value)) = true ↔
              DroppedDecl key value := by
            simp only [containsSeq, Bool.or_eq_true, Bool.and_eq_true,
              decide_eq_true_eq, List.isPrefixOf_iff_prefix, isZeroValue_iff,
              DroppedDecl]
            tauto
          constructor
          · intro h
            split at h
            · exact absurd h (by simp)
            · next hcond' =>
              refine ⟨h0, ?_⟩
              intro key' value' rest' heq hne hdrop
              injection heq with h1 h2
              injection h2 with h2 _
              subst h1; subst h2
              exact hcond' (hcond.mpr hdrop)
          · intro ⟨_, hall⟩
            rw [if_neg]
            intro hc
            exact hall key value rest rfl hv (hcond.mp hc)

theorem getEffective_find_solid {fills : List Paint} {bg color : RgbColor}
    {op : Option ℚ} {v : Bool}
    (h : fills.find? Paint.isVisible = some (Paint.solid color op v)) :
    getEffectiveBackgroundColorForFills fills bg = resolveFill color (op.getD 1) bg := by
  have hne : fills ≠ [] := by rintro rfl; simp at h
  unfold getEffectiveBackgroundColorForFills
  rw [if_neg hne, h]

theorem getEffective_find_gradient {fills : List Paint} {bg : RgbColor}
    {s0 : RgbaColor} {stops : List RgbaColor} {v : Bool}
    (h : fills.find? Paint.isVisible = some (Paint.gradient s0 stops v)) :
    getEffectiveBackgroundColorForFills fills bg =
      resolveFill ⟨s0.r, s0.g, s0.b⟩ s0.a bg := by
  have hne : fills ≠ [] := by rintro rfl; simp at h
  unfold getEffectiveBackgroundColorForFills
  rw [if_neg hne, h]

/-- C7: color resolution.  A first visible solid fill of opacity at least
`0.99` returns its color unchanged; a lower opacity alpha-composites the
color over the inherited background with `result = fg*a + bg*(1-a)` per
channel and hex-encodes it; a gradient contributes its first stop's color
and alpha under the same rule; and `RGBA(1,0,0,0.5)` over white gives
`RGB(1,0.5,0.5)`, hex `#ff8080`. -/
theorem claim_C7 :
    (∀ (fills : List Paint) (bg color : RgbColor) (op : Option ℚ) (v : Bool),
      fills.find? Paint.isVisible = some (Paint.solid color op v) →
      (op.getD 1 ≥ 0.99 →
        getEffectiveBackgroundColorForFills fills bg =
          ⟨some (figmaColorToHex color), color⟩) ∧
      (¬ op.getD 1 ≥ 0.99 →
        getEffectiveBackgroundColorForFills fills bg =
          ⟨some (figmaColorToHex (blendColors ⟨color.r, color.g, color.b, op.getD 1⟩ bg)),
            blendColors ⟨color.r, color.g, color.b, op.getD 1⟩ bg⟩)) ∧
    (∀ (fills : List Paint) (bg : RgbColor) (s0 : RgbaColor)
      (stops : List RgbaColor) (v : Bool),
      fills.find? Paint.isVisible = some (Paint.gradient s0 stops v) →
      (s0.a ≥ 0.99 →
        getEffectiveBackgroundColorForFills fills bg =
          ⟨some (figmaColorToHex ⟨s0.r, s0.g, s0.b⟩), ⟨s0.r, s0.g, s0.b⟩⟩) ∧
      (¬ s0.a ≥ 0.99 →
        getEffectiveBackgroundColorForFills fills bg =
          ⟨some (figmaColorToHex (blendColors ⟨s0.r, s0.g, s0.b, s0.a⟩ bg)),
            blendColors ⟨s0.r, s0.g, s0.b, s0.a⟩ bg⟩)) ∧
    (∀ (fg : RgbaColor) (bg : RgbColor),
      blendColors fg bg =
        ⟨fg.r * fg.a + bg.r * (1 - fg.a), fg.g * fg.a + bg.g * (1 - fg.a),
          fg.b * fg.a + bg.b * (1 - fg.a)⟩) ∧
    blendColors ⟨1, 0, 0, 0.5⟩ ⟨1, 1, 1⟩ = ⟨1, 0.5, 0.5⟩ ∧
    getEffectiveBackgroundColorForFills [Paint.solid ⟨1, 0, 0⟩ (some 0.5) true]
      ⟨1, 1, 1⟩ = ⟨some "#ff8080", ⟨1, 0.5, 0.5⟩⟩ := by
  refine ⟨?_, ?_, ?_, ?_, ?_⟩
  · intro fills bg color op v h
    rw [getEffective_find_solid h]
    constructor
    · intro hop; rw [resolveFill, if_pos hop]
    · intro hop; rw [resolveFill, if_neg hop]
  · intro fills bg s0 stops v h
    rw [getEffective_find_gradient h]
    constructor
    · intro hop; rw [resolveFill, if_pos hop]
    · intro hop; rw [resolveFill, if_neg hop]
  · intro fg bg; rfl
  · with_unfolding_all rfl
  · with_unfolding_all rfl

/-- Closed instance of C7's conditional parts: the half-opacity red fill is
really composited (its opacity is not at least 0.99). -/
theorem claim_C7_witness :
    getEffectiveBackgroundColorForFills [Paint.solid ⟨1, 0, 0⟩ (some 0.5) true]
        ⟨1, 1, 1⟩ =
      ⟨some (figmaColorToHex (blendColors ⟨1, 0, 0, 0.5⟩ ⟨1, 1, 1⟩)),
        blendColors ⟨1, 0, 0, 0.5⟩ ⟨1, 1, 1⟩⟩ :=
  ((claim_C7.1 [Paint.solid ⟨1, 0, 0⟩ (some 0.5) true] ⟨1, 1, 1⟩ ⟨1, 0, 0⟩
      (some 0.5) true rfl).2
    (of_decide_eq_false (by with_unfolding_all rfl)))

/-- C2 (code bug): a run whose style differs from the base style in exactly
one entry, font-weight 700, is emitted as a `strong` element that STILL
carries `style="font-weight:700;"`, although README and spec say the
semantic tag is used instead of the inline declaration (and likewise for
italic runs and `i`). -/
theorem claim_C2 :
    (processTextNode boldRunTextNode ⟨1, 1, 1⟩).2 =
      "hello world<strong style=\"font-weight:700;\">x</strong>" ∧
    diffStyleObjects (getSegmentStyleObject (segReg "hello world") ⟨1, 1, 1⟩)
        (getSegmentStyleObject (segBold "x") ⟨1, 1, 1⟩) =
      [("font-weight", "700")] := by
  constructor <;> with_unfolding_all rfl

/-- C4 is false as stated: with accumulated counts 3, 5, 2 over styles
A, B, A both styles tie at five characters and A's first run occurs
earlier, yet the computed base style is B (the bold style), because a tying
later map never displaces the map that reached the maximum first. -/
theorem claim_C4_cex :
    (processTextNode tieTextNode ⟨1, 1, 1⟩).1 =
      getSegmentStyleObject (segBold "bbbbb") ⟨1, 1, 1⟩ ∧
    getSegmentStyleObject (segBold "bbbbb") ⟨1, 1, 1⟩ ≠
      getSegmentStyleObject (segReg "aaa") ⟨1, 1, 1⟩ := by
  constructor
  · with_unfolding_all rfl
  · exact of_decide_eq_false (by with_unfolding_all rfl)


theorem jsGet_map_set {α β : Type} [BEq α] [LawfulBEq α]
    (m : List (α × β)) (k k' : α) (v : β) :
    jsGet (m.map (fun kv => if kv.1 == k then (kv.1, v) else kv)) k' =
      (jsGet m k').map (fun w => if k' == k then v else w) := by
  induction m with
  | nil => rfl
  | cons kv m' ih =>
    by_cases hk : kv.1 == k
    · by_cases hk' : kv.1 == k'
      · have h1 : kv.1 = k := eq_of_beq hk
        have h2 : kv.1 = k' := eq_of_beq hk'
        have h3 : (k' == k) = true := beq_iff_eq.mpr (h2 ▸ h1)
        simp [jsGet, List.find?_cons, hk, hk', h3]
      · have h1 : kv.1 = k := eq_of_beq hk
        simp [jsGet, List.find?_cons, hk, hk'] at ih ⊢
        exact ih
    · by_cases hk' : kv.1 == k'
      · have h2 : kv.1 = k' := eq_of_beq hk'
        have h3 : (k' == k) = false := by
          rw [beq_eq_false_iff_ne]
          intro hcon
          exact absurd (beq_iff_eq.mpr (hcon ▸ h2.symm).symm) (by simp [hk])
        simp [jsGet, List.find?_cons, hk, hk', h3]
      · simp [jsGet, List.find?_cons, hk, hk'] at ih ⊢
        exact ih

theorem jsGet_append {α β : Type} [BEq α] (m₁ m₂ : List (α × β)) (k : α) :
    jsGet (m₁ ++ m₂) k = ((jsGet m₁ k).orElse (fun _ => jsGet m₂ k)) := by
  simp [jsGet, List.find?_append]
  cases m₁.find? (fun kv => kv.1 == k) <;> simp [Option.orElse]

theorem jsGet_isSome_of_any {α β : Type} [BEq α] [LawfulBEq α]
    {m : List (α × β)} {k : α} (h : m.any (fun kv => kv.1 == k) = true) :
    (jsGet m k).isSome := by
  rcases List.any_eq_true.mp h with ⟨kv, hkv, he⟩
  unfold jsGet
  rcases hf : m.find? (fun kv => kv.1 == k) with _ | found
  · exact absurd (List.find?_eq_none.mp hf kv hkv) (by simp [he])
  · simp [hf]

theorem jsGet_jsSet {α β : Type} [BEq α] [LawfulBEq α]
    (m : List (α × β)) (k k' : α) (v : β) :
    jsGet (jsSet m k v) k' = if k' == k then some v else jsGet m k' := by
  by_cases hk' : (k' == k) = true
  · have heq : k' = k := eq_of_beq hk'
    subst heq
    rw [if_pos hk']
    unfold jsSet
    by_cases hany : m.any (fun kv => kv.1 == k') = true
    · rw [if_pos hany, jsGet_map_set]
      have hsome := jsGet_isSome_of_any hany
      rcases ho : jsGet m k' with _ | w
      · rw [ho] at hsome; exact absurd hsome (by simp)
      · simp [hk']
    · rw [if_neg hany]
      have hfind : List.find? (fun kv => kv.1 == k') m = none :=
        List.find?_eq_none.mpr
          (fun kv hkv hc => hany (List.any_eq_true.mpr ⟨kv, hkv, hc⟩))
      unfold jsGet
      rw [List.find?_append, hfind]
      simp [List.find?, hk']
  · rw [if_neg hk']
    unfold jsSet
    by_cases hany : m.any (fun kv => kv.1 == k) = true
    · rw [if_pos hany, jsGet_map_set]
      rcases ho : jsGet m k' with _ | w <;> simp [hk']
    · rw [if_neg hany]
      unfold jsGet
      rw [List.find?_append]
      have hkk : (k == k') = false := by
        rw [beq_eq_false_iff_ne]
        intro hc
        exact hk' (beq_iff_eq.mpr hc.symm)
      have h2 : List.find? (fun kv => kv.1 == k') [(k, v)] = none := by
        simp [List.find?, hkk]
      rw [h2]
      cases List.find? (fun kv => kv.1 == k') m <;> simp [Option.orElse]

theorem totalCount_append (s : List (String × String))
    (p q : List (List (String × String) × Nat)) :
    totalCount s (p ++ q) = totalCount s p + totalCount s q := by
  simp [totalCount, List.filter_append]

theorem totalCount_singleton (s t : List (String × String)) (c : Nat) :
    totalCount s [(t, c)] = if t == s then c else 0 := by
  by_cases h : (t == s) = true <;> simp [totalCount, List.filter, h]

theorem totalCount_eq_zero_of_not_any {s : List (String × String)}
    {p : List (List (String × String) × Nat)}
    (h : ¬ p.any (fun kv => kv.1 == s) = true) :
    totalCount s p = 0 := by
  have hfil : p.filter (fun kv => kv.1 == s) = [] := by
    rw [List.filter_eq_nil_iff]
    intro kv hkv
    exact fun hc => h (List.any_eq_true.mpr ⟨kv, hkv, hc⟩)
  simp [totalCount, hfil]

theorem totalCount_congr {s t : List (String × String)}
    (h : s = t) (p : List (List (String × String) × Nat)) :
    totalCount s p = totalCount t p := by rw [h]

theorem beq_symm_false {s k : List (String × String)}
    (h : ¬ (k == s) = true) : (s == k) = false := by
  rw [beq_eq_false_iff_ne]
  intro hc
  exact h (beq_iff_eq.mpr hc.symm)

theorem tallyInv_step {p : List (List (String × String) × Nat)}
    {st : BaseStyleState} (inv : TallyInv p st)
    (seg : List (String × String) × Nat) :
    TallyInv (p ++ [seg]) (baseStyleStep st seg) := by
  obtain ⟨s, c⟩ := seg
  have hcur : (jsGet st.styleCounts s).getD 0 = totalCount s p := by
    rw [inv.counts_eq s]
    by_cases h : p.any (fun kv => kv.1 == s) = true
    · rw [if_pos h]; rfl
    · rw [if_neg h]
      simp [totalCount_eq_zero_of_not_any h]
  have hnew : totalCount s (p ++ [(s, c)]) = totalCount s p + c := by
    rw [totalCount_append, totalCount_singleton]
    simp
  have hother : ∀ k, (s == k) = false →
      totalCount k (p ++ [(s, c)]) = totalCount k p := by
    intro k hk
    rw [totalCount_append, totalCount_singleton k s c, hk]
    simp
  have hbs : baseStyleStep st (s, c) =
      (if ((totalCount s p + c : ℕ) : ℤ) > st.maxCount then
        (⟨jsSet st.styleCounts s (totalCount s p + c),
          ((totalCount s p + c : ℕ) : ℤ), s⟩ : BaseStyleState)
      else ⟨jsSet st.styleCounts s (totalCount s p + c), st.maxCount,
        st.mostCommonStyle⟩) := by
    unfold baseStyleStep
    rw [hcur]
  rw [hbs]
  split
  · next hgt =>
    constructor
    · intro k
      rw [jsGet_jsSet]
      by_cases hks : (k == s) = true
      · have hk : k = s := eq_of_beq hks
        subst hk
        rw [if_pos hks, hnew]
        rw [if_pos]
        simp [List.any_append]
      · rw [if_neg hks, inv.counts_eq k, hother k (beq_symm_false hks)]
        have hany : (p ++ [(s, c)]).any (fun kv => kv.1 == k) =
            p.any (fun kv => kv.1 == k) := by
          simp [List.any_append, beq_symm_false hks]
        rw [hany]
    · intro kv hkv
      rcases List.mem_append.mp hkv with hkv | hkv
      · by_cases hks : (s == kv.1) = true
        · have hk : s = kv.1 := eq_of_beq hks
          rw [← hk, hnew]
        · rw [hother kv.1 (by simpa using hks)]
          exact le_of_lt (lt_of_le_of_lt (inv.le_max kv hkv) hgt)
      · rcases List.mem_singleton.mp hkv with rfl
        rw [hnew]
    · intro _
      constructor
      · simp [List.any_append]
      · rw [hnew]
    · intro habs
      simp at habs
  · next hle =>
    have hle' : ((totalCount s p + c : ℕ) : ℤ) ≤ st.maxCount := not_lt.mp hle
    constructor
    · intro k
      rw [jsGet_jsSet]
      by_cases hks : (k == s) = true
      · have hk : k = s := eq_of_beq hks
        subst hk
        rw [if_pos hks, hnew]
        rw [if_pos]
        simp [List.any_append]
      · rw [if_neg hks, inv.counts_eq k, hother k (beq_symm_false hks)]
        have hany : (p ++ [(s, c)]).any (fun kv => kv.1 == k) =
            p.any (fun kv => kv.1 == k) := by
          simp [List.any_append, beq_symm_false hks]
        rw [hany]
    · intro kv hkv
      rcases List.mem_append.mp hkv with hkv | hkv
      · by_cases hks : (s == kv.1) = true
        · have hk : s = kv.1 := eq_of_beq hks
          rw [← hk, hnew]
          exact hle'
        · rw [hother kv.1 (by simpa using hks)]
          exact inv.le_max kv hkv
      · rcases List.mem_singleton.mp hkv with rfl
        rw [hnew]
        exact hle'
    · intro _
      have hp : p ≠ [] := by
        rintro rfl
        have h0 := inv.empty_max rfl
        have : ((totalCount s ([] : List (List (String × String) × Nat)) + c : ℕ) : ℤ) ≥ 0 :=
          Int.natCast_nonneg _
        omega
      obtain ⟨hmc_any, hmc_tot⟩ := inv.mc_max hp
      constructor
      · simp [List.any_append, hmc_any]
      · by_cases hks : (s == st.mostCommonStyle) = true
        · have hk : s = st.mostCommonStyle := eq_of_beq hks
          have htot : totalCount st.mostCommonStyle (p ++ [(s, c)]) =
              totalCount st.mostCommonStyle p + c := by
            rw [← hk, hnew]
          have hc0 : c = 0 := by
            have h3 := hle'
            rw [totalCount_congr hk] at h3
            omega
          rw [htot, hc0]
          simpa using hmc_tot
        · rw [hother _ (by simpa using hks), hmc_tot]
    · intro habs
      simp at habs

theorem tallyInv_foldl (l : List (List (String × String) × Nat)) :
    ∀ (p : List (List (String × String) × Nat)) (st : BaseStyleState),
    TallyInv p st → TallyInv (p ++ l) (l.foldl baseStyleStep st) := by
  induction l with
  | nil => intro p st inv; simpa using inv
  | cons seg rest ih =>
    intro p st inv
    rw [List.foldl_cons]
    have := ih (p ++ [seg]) (baseStyleStep st seg) (tallyInv_step inv seg)
    simpa using this

theorem tallyInv_init : TallyInv [] ⟨[], -1, []⟩ := by
  constructor
  · intro k; rfl
  · intro kv hkv; cases hkv
  · intro h; exact absurd rfl h
  · intro _; decide

theorem computeBaseStyle_dominant
    (segs : List (List (String × String) × Nat)) (S : List (String × String))
    (hS : segs.any (fun kv => kv.1 == S) = true)
    (hdom : ∀ kv ∈ segs, kv.1 ≠ S → totalCount kv.1 segs < totalCount S segs) :
    (computeBaseStyle segs).mostCommonStyle = S := by
  have inv := tallyInv_foldl segs [] ⟨[], -1, []⟩ tallyInv_init
  rw [List.nil_append] at inv
  have hne : segs ≠ [] := by
    rintro rfl
    simp at hS
  obtain ⟨hmc_any, hmc_tot⟩ := inv.mc_max hne
  rcases List.any_eq_true.mp hmc_any with ⟨kv, hkv, he⟩
  have hkey : kv.1 = (computeBaseStyle segs).mostCommonStyle := eq_of_beq he
  by_contra hcon
  have hkv_ne : kv.1 ≠ S := fun hc => hcon (hkey ▸ hc)
  have h1 : totalCount kv.1 segs < totalCount S segs := hdom kv hkv hkv_ne
  rcases List.any_eq_true.mp hS with ⟨kvS, hkvS, heS⟩
  have hkeyS : kvS.1 = S := eq_of_beq heS
  have h2 : (totalCount S segs : ℤ) ≤ (computeBaseStyle segs).maxCount := by
    have := inv.le_max kvS hkvS
    rwa [totalCount_congr hkeyS] at this
  have h3 : (totalCount kv.1 segs : ℤ) = (computeBaseStyle segs).maxCount := by
    rw [totalCount_congr hkey]
    exact hmc_tot
  omega

/-- C4 (amended): the base style is the style map with the strictly greatest
accumulated character count whenever one map strictly dominates all others;
on a tie the code keeps the map that first attained the running maximum
during the left-to-right scan, not necessarily the map whose first run is
earlier (accumulated counts 3,5,2 over A,B,A give B); in particular counts
10,3,7 over A,B,A give base style A, with only the style-B run wrapped in
an inline override. -/
theorem claim_C4 :
    (∀ (segs : List (List (String × String) × Nat)) (S : List (String × String)),
      segs.any (fun kv => kv.1 == S) = true →
      (∀ kv ∈ segs, kv.1 ≠ S → totalCount kv.1 segs < totalCount S segs) →
      (computeBaseStyle segs).mostCommonStyle = S) ∧
    (processTextNode dominanceTextNode ⟨1, 1, 1⟩).1 =
      getSegmentStyleObject (segReg "aaaaaaaaaa") ⟨1, 1, 1⟩ ∧
    (processTextNode dominanceTextNode ⟨1, 1, 1⟩).2 =
      "aaaaaaaaaa<strong style=\"font-weight:700;\">bbb</strong>ccccccc" ∧
    (computeBaseStyle
        [([("k", "a")], 3), ([("k", "b")], 5), ([("k", "a")], 2)]).mostCommonStyle
      = [("k", "b")] := by
  refine ⟨computeBaseStyle_dominant, ?_, ?_, ?_⟩
  · with_unfolding_all rfl
  · with_unfolding_all rfl
  · rfl

/-- Closed instance of C4's dominance part at the spec's 10,3,7 example. -/
theorem claim_C4_witness :
    (computeBaseStyle
        [([("k", "a")], 10), ([("k", "b")], 3), ([("k", "a")], 7)]).mostCommonStyle
      = [("k", "a")] :=
  claim_C4.1 [([("k", "a")], 10), ([("k", "b")], 3), ([("k", "a")], 7)]
    [("k", "a")] (by decide) (by decide)

theorem isBulletPoint_iff (node : SceneNode) :
    isBulletPoint node = true ↔
      (node.type = NodeType.frame ∧ node.visible = true ∧
        node.layoutMode = some LayoutMode.horizontal ∧
        ∃ c1 c2, node.children = [c1, c2] ∧ c1.type = NodeType.text ∧
          c2.type = NodeType.text ∧ (strTrim c1.characters).length = 1 ∧
          (bulletCharacterMap (strTrim c1.characters)).isSome = true) := by
  unfold isBulletPoint
  by_cases h1 : node.type ≠ NodeType.frame ∨ node.visible = false ∨
      node.layoutMode ≠ some LayoutMode.horizontal ∨ node.children.length ≠ 2
  · rw [if_pos h1]
    simp only [Bool.false_eq_true, false_iff]
    rintro ⟨hf, hv, hl, c1, c2, hc, -⟩
    rcases h1 with h | h | h | h
    · exact h hf
    · rw [hv] at h; exact Bool.noConfusion h
    · exact h hl
    · rw [hc] at h; exact h rfl
  · rw [if_neg h1]
    push_neg at h1
    obtain ⟨hf, hv, hl, hlen⟩ := h1
    have hv' : node.visible = true := by
      cases hvv : node.visible
      · exact absurd hvv hv
      · rfl
    rcases hch : node.children with _ | ⟨c1, _ | ⟨c2, _ | ⟨c3, cs⟩⟩⟩
    · rw [hch] at hlen
      simp at hlen
    · rw [hch] at hlen
      simp at hlen
    · simp only []
      by_cases ht : c1.type ≠ NodeType.text ∨ c2.type ≠ NodeType.text
      · rw [if_pos ht]
        simp only [Bool.false_eq_true, false_iff]
        rintro ⟨-, -, -, d1, d2, hd, ht1, ht2, -⟩
        injection hd with e1 hd
        injection hd with e2 _
        subst e1; subst e2
        rcases ht with h | h
        · exact h ht1
        · exact h ht2
      · rw [if_neg ht]
        push_neg at ht
        constructor
        · intro hb
          rw [Bool.and_eq_true] at hb
          exact ⟨hf, hv', hl, c1, c2, rfl, ht.1, ht.2,
            beq_iff_eq.mp hb.1, hb.2⟩
        · rintro ⟨-, -, -, d1, d2, hd, -, -, hlen1, hsome⟩
          injection hd with e1 hd
          injection hd with e2 _
          subst e1; subst e2
          rw [Bool.and_eq_true]
          exact ⟨beq_iff_eq.mpr hlen1, hsome⟩
    · rw [hch] at hlen
      simp at hlen


/-- C6 (amended): a node is classified (and rendered) as a bullet pair
exactly when it is a visible FRAME with horizontal layout, exactly two
children, both text, whose first child's trimmed content is a single
recognized bullet glyph; container kinds other than FRAME (GROUP,
COMPONENT, INSTANCE) are never classified as bullet pairs even when they
meet every other condition.  The frame with first child trimming to the
bullet glyph classifies; two glyphs do not. -/
theorem claim_C6 :
    (∀ node : SceneNode, isBulletPoint node = true ↔
      (node.type = NodeType.frame ∧ node.visible = true ∧
        node.layoutMode = some LayoutMode.horizontal ∧
        ∃ c1 c2, node.children = [c1, c2] ∧ c1.type = NodeType.text ∧
          c2.type = NodeType.text ∧ (strTrim c1.characters).length = 1 ∧
          (bulletCharacterMap (strTrim c1.characters)).isSome = true)) ∧
    isBulletPoint bulletFrameNode = true ∧
    renderNodeF false "placeholder" 10 bulletFrameNode 100 ⟨1, 1, 1⟩ =
      renderBulletPoint bulletFrameNode ⟨1, 1, 1⟩ ∧
    isBulletPoint doubleBulletFrameNode = false := by
  refine ⟨isBulletPoint_iff, by decide, ?_, by decide⟩
  show renderNodeCore (renderNodeF false "placeholder" 9) (isImageLikeNode 10)
    false "placeholder" bulletFrameNode 100 ⟨1, 1, 1⟩ = _
  unfold renderNodeCore
  rw [if_neg (by decide), if_neg (by decide), if_neg (by decide)]
  rw [show bulletFrameNode.type = NodeType.frame from rfl]
  simp only []
  rw [if_pos (by decide)]

/-- C6 is false as stated: a COMPONENT that meets every condition of the
claim (horizontal layout, two text children, first child trimmed to a
single recognized bullet glyph) is not classified as a bullet pair, and is
rendered by the generic container path, not the bullet-pair renderer. -/
theorem claim_C6_cex :
    isBulletPoint bulletComponentNode = false ∧
    renderNodeF false "placeholder" 10 bulletComponentNode 100 ⟨1, 1, 1⟩ ≠
      renderBulletPoint bulletComponentNode ⟨1, 1, 1⟩ := by
  refine ⟨by decide, by decide⟩

/-- C8 (code bug): every table carries zero cellpadding, cellspacing and
border, but the tables emitted by the shape path (`renderShape`) and the
text-block path (`renderText`) carry no `role="presentation"` attribute,
although the README states the role is standard on all tables (the other
paths do emit it). -/
theorem claim_C8 :
    containsSeq (renderShape (SceneNode.mk baseData []) ⟨1, 1, 1⟩).data
      "cellpadding=\"0\"".data = true ∧
    containsSeq (renderShape (SceneNode.mk baseData []) ⟨1, 1, 1⟩).data
      "cellspacing=\"0\"".data = true ∧
    containsSeq (renderShape (SceneNode.mk baseData []) ⟨1, 1, 1⟩).data
      "border=\"0\"".data = true ∧
    containsSeq (renderShape (SceneNode.mk baseData []) ⟨1, 1, 1⟩).data
      "role=\"presentation\"".data = false ∧
    renderShape (SceneNode.mk baseData []) ⟨1, 1, 1⟩ ≠ "" ∧
    containsSeq (renderText boldRunTextNode ⟨1, 1, 1⟩).data
      "cellpadding=\"0\"".data = true ∧
    containsSeq (renderText boldRunTextNode ⟨1, 1, 1⟩).data
      "cellspacing=\"0\"".data = true ∧
    containsSeq (renderText boldRunTextNode ⟨1, 1, 1⟩).data
      "border=\"0\"".data = true ∧
    containsSeq (renderText boldRunTextNode ⟨1, 1, 1⟩).data
      "role=\"presentation\"".data = false ∧
    renderText boldRunTextNode ⟨1, 1, 1⟩ ≠ "" := by
  refine ⟨?_, ?_, ?_, ?_, ?_, ?_, ?_, ?_, ?_, ?_⟩ <;>
    first
      | (set_option maxRecDepth 100000 in with_unfolding_all rfl)
      | exact of_decide_eq_false
          (by set_option maxRecDepth 100000 in with_unfolding_all rfl)

/-- C1 (amended): the recognized image export modes are `placeholder` and
`base64` only.  A conversion run never returns assets: the list posted
alongside the HTML is the literal empty array, whatever the mode.  With an
unrecognized mode such as `named-asset`, an image-like node whose export
succeeds produces empty markup (while both recognized modes produce
nonempty markup). -/
theorem claim_C1 :
    (∀ (fuel : Nat) (sel : List SceneNode) (mode : String) (lit : Bool),
      (processSelection fuel sel mode lit).2 = []) ∧
    (∀ (node : SceneNode) (w : ℚ) (mode : String) (s : String),
      mode ≠ "placeholder" → mode ≠ "base64" → node.exportData = some s →
      renderImage node w mode = "") ∧
    renderImage imageRectNode 100 "placeholder" ≠ "" ∧
    renderImage imageRectNode 100 "base64" ≠ "" := by
  refine ⟨?_, ?_, ?_, ?_⟩
  · intro fuel sel mode lit
    unfold processSelection
    split <;> rfl
  · intro node w mode s h1 h2 h3
    unfold renderImage
    split
    · rfl
    · rw [h3]
  · exact of_decide_eq_false
      (by set_option maxRecDepth 100000 in with_unfolding_all rfl)
  · exact of_decide_eq_false
      (by set_option maxRecDepth 100000 in with_unfolding_all rfl)

/-- Closed instance of C1's second part at the concrete image node. -/
theorem claim_C1_witness :
    renderImage imageRectNode 100 "named-asset" = "" :=
  claim_C1.2.1 imageRectNode 100 "named-asset" "QUJD"
    (by decide) (by decide) rfl

/-- C1 is false as stated: converting a selection holding one image-like
node in mode `named-asset` yields markup with no `images/image-1.png`
reference and an empty asset list with no entry at all. -/
theorem claim_C1_cex :
    processSelection 10 [imageRectNode] "named-asset" false = ("", []) ∧
    containsSeq (processSelection 10 [imageRectNode] "named-asset" false).1.data
      "images/image-1.png".data = false := by
  constructor
  · set_option maxRecDepth 100000 in with_unfolding_all rfl
  · set_option maxRecDepth 100000 in with_unfolding_all rfl

/-- C3 (amended): the cleanup is exactly a filter over the semicolon-split
declarations that drops blank segments, every declaration whose property
contains `border-radius` regardless of its value (a consequence of the
source operator precedence), and every declaration whose property starts with
`padding`, `margin` or `border` whose value is zero bare or with unit
px, pt, em, %, vw or vh; declarations without a nonempty value and all
others pass through unchanged; in particular all `padding*/margin*/
border*:0<unit>` declarations are removed. -/
theorem claim_C3 :
    (∀ s : String, cleanZeroValueStyles s =
      ⟨joinWithChar ';' ((splitOnChar ';' s.data).filter cleanKeepRule)⟩) ∧
    (∀ rule : List Char, cleanKeepRule rule = true ↔
      (trimChars rule ≠ [] ∧
        ∀ key value rest,
          (splitOnChar ':' rule).map trimChars = key :: value :: rest →
          value ≠ [] → ¬ DroppedDecl key value)) ∧
    cleanZeroValueStyles "padding:0px;margin-top:0;border:0em;color:red;width:0px"
      = "color:red;width:0px" := by
  refine ⟨?_, cleanKeepRule_iff, by decide⟩
  intro s
  by_cases hs : s = ""
  · subst hs; decide
  · rw [cleanZeroValueStyles, if_neg hs]

/-- C3 is false as stated: `border-radius:5px` has a non-zero value, yet
the cleanup removes it instead of passing it through. -/
theorem claim_C3_cex :
    cleanZeroValueStyles "border-radius:5px" = "" ∧
    cleanZeroValueStyles "border-radius:5px" ≠ "border-radius:5px" := by
  exact ⟨by decide, by decide⟩

/-- C9 (amended): `sanitizeStyles` is idempotent on every style string in
which no declaration has a nonempty property name consisting only of
whitespace (such a name is stored trimmed to the empty string by the first
pass and dropped by the second). -/
theorem claim_C9 (s : String)
    (H : ∀ r ∈ splitOnChar ';' s.data, (splitOnChar ':' r).headI = [] ∨
      trimChars (splitOnChar ':' r).headI ≠ []) :
    sanitizeStyles (sanitizeStyles s) = sanitizeStyles s :=
  sanitizeStyles_idempotent s H

/-- Closed instance of C9 on a realistic style string (with spacing and a
duplicate property). -/
theorem claim_C9_witness :
    (∀ r ∈ splitOnChar ';' ("color: red; font-weight:700;color:blue" : String).data,
      (splitOnChar ':' r).headI = [] ∨ trimChars (splitOnChar ':' r).headI ≠ []) ∧
    sanitizeStyles (sanitizeStyles "color: red; font-weight:700;color:blue") =
      sanitizeStyles "color: red; font-weight:700;color:blue" :=
  ⟨by decide, claim_C9 "color: red; font-weight:700;color:blue" (by decide)⟩

/-- C9 is false as stated: on `" :v"` the first pass stores the rule under
the empty property name and prints `":v"`, which the second pass drops, so
the second application changes the result. -/
theorem claim_C9_cex :
    sanitizeStyles (sanitizeStyles " :v") ≠ sanitizeStyles " :v" := by decide

theorem string_append_ne_empty_of_left {a b : String} (ha : a ≠ "") :
    a ++ b ≠ "" := by
  intro h
  apply ha
  have hd := congrArg String.data h
  rw [String.data_append] at hd
  rcases List.append_eq_nil.mp hd with ⟨h1, -⟩
  cases a
  cases h1
  rfl

theorem renderShape_rect_ne_empty (y h : ℚ) (bg : RgbColor) (hh : 1 ≤ h) :
    renderShape (rectNode y h) bg ≠ "" := by
  unfold renderShape
  rw [if_neg]
  · intro hcon
    have hd := congrArg String.data hcon
    simp [String.data_append] at hd
  · rintro (hc | hc)
    · rw [show (rectNode y h).width = 100 from rfl] at hc
      norm_num at hc
    · rw [show (rectNode y h).height = h from rfl] at hc
      exact absurd hh (not_le.mpr hc)

theorem renderNodeF_rect (lit : Bool) (mode : String) (fuel : Nat)
    (y h w : ℚ) (bg : RgbColor) :
    renderNodeF lit mode (fuel + 1) (rectNode y h) w bg =
      renderShape (rectNode y h) bg := by
  unfold renderNodeF renderNodeCore
  rfl

theorem stackedChildrenLoop_cons_nontext
    (render : SceneNode → ℚ → RgbColor → String) (bg : RgbColor)
    (pl pr : ℚ) (cs : Nat) (aw : ℚ) (fuel : Nat) (child : SceneNode)
    (rest : List SceneNode) (lastY : ℚ)
    (ht : ¬ child.type = NodeType.text) :
    stackedChildrenLoop render bg pl pr cs aw (fuel + 1) (child :: rest) lastY =
      (if jsRound (child.y - lastY) > 2 then
        [gapFillerRow (jsRound (child.y - lastY)) cs] else []) ++
      (if render child aw bg ≠ "" then
        ["<tr>" ++ (if pl > 0 then gutterCell pl else "") ++ "<td>" ++
          render child aw bg ++ "</td>" ++
          (if pr > 0 then gutterCell pr else "") ++ "</tr>"]
       else []) ++
      stackedChildrenLoop render bg pl pr cs aw fuel rest
        (child.y + child.height) := by
  conv_lhs => unfold stackedChildrenLoop
  rw [if_neg ht]


theorem plainRow_eq (s : String) :
    "<tr>" ++ (if (0:ℚ) > 0 then gutterCell 0 else "") ++ "<td>" ++ s ++ "</td>" ++
      (if (0:ℚ) > 0 then gutterCell 0 else "") ++ "</tr>" =
    "<tr><td>" ++ s ++ "</td></tr>" := by
  norm_num
  rw [show ("<tr>" ++ "<td>" : String) = "<tr><td>" from rfl,
    String.append_assoc ("<tr><td>" ++ s) "</td>" "</tr>"]
  rfl

theorem getStackedRows_rect_pair
    (render : SceneNode → ℚ → RgbColor → String)
    (y1 h1 y2 h2 w : ℚ) (bg : RgbColor) :
    getStackedRows render (vstackFrame [rectNode y1 h1, rectNode y2 h2]) w bg =
      stackedChildrenLoop render bg 0 0 1 (w - 0 - 0) (0 + 1 + 1)
        [rectNode y1 h1, rectNode y2 h2] 0 := by
  unfold getStackedRows vstackFrame rectNode
  simp only [SceneNode.children, SceneNode.layoutMode, SceneNode.visible,
    SceneNode.paddingLeft, SceneNode.paddingRight, SceneNode.paddingTop,
    SceneNode.data, baseData, List.filter, List.length_cons, List.length_nil,
    Option.getD]
  norm_num
theorem stackedRows_rect_pair
    (lit : Bool) (mode : String) (fuel : Nat) (bg : RgbColor)
    (y1 h1 y2 h2 w : ℚ) (hh1 : 1 ≤ h1) (hh2 : 1 ≤ h2) :
    getStackedRows (renderNodeF lit mode (fuel + 1))
        (vstackFrame [rectNode y1 h1, rectNode y2 h2]) w bg =
      (if jsRound y1 > 2 then [gapFillerRow (jsRound y1) 1] else []) ++
      ["<tr><td>" ++ renderShape (rectNode y1 h1) bg ++ "</td></tr>"] ++
      (if jsRound (y2 - (y1 + h1)) > 2 then
        [gapFillerRow (jsRound (y2 - (y1 + h1))) 1] else []) ++
      ["<tr><td>" ++ renderShape (rectNode y2 h2) bg ++ "</td></tr>"] := by
  rw [getStackedRows_rect_pair]
  rw [stackedChildrenLoop_cons_nontext _ _ _ _ _ _ (0 + 1) _ _ _
    (by rw [show (rectNode y1 h1).type = NodeType.rectangle from rfl]; decide)]
  rw [stackedChildrenLoop_cons_nontext _ _ _ _ _ _ 0 _ _ _
    (by rw [show (rectNode y2 h2).type = NodeType.rectangle from rfl]; decide)]
  rw [renderNodeF_rect, renderNodeF_rect]
  rw [if_pos (renderShape_rect_ne_empty y1 h1 bg hh1)]
  rw [if_pos (renderShape_rect_ne_empty y2 h2 bg hh2)]
  rw [plainRow_eq, plainRow_eq]
  simp only [rectNode, baseData, SceneNode.y, SceneNode.height, SceneNode.data,
    sub_zero]
  simp only [stackedChildrenLoop, List.append_nil, List.append_assoc]
/-- C5 (amended): in a vertical stack, a filler row is inserted between two
consecutive children exactly when the rounded gap `Math.round(childY -
lastBottomY)` exceeds 2; the filler's cell carries a height attribute, a
font-size and a line-height all equal to the rounded gap.  For two stacked
rectangles the rows are: an optional leading filler (rounded first-child
offset > 2), the first shape row, an optional filler for the rounded
inter-child gap, and the second shape row.  With heights 20 at y 0 and a
second child at y 30 the gap is 10 and a filler appears; at y 21 the gap
is 1 and none appears. -/
theorem claim_C5 :
    (∀ (fuel : Nat) (lit : Bool) (mode : String) (bg : RgbColor)
       (y1 h1 y2 h2 w : ℚ), 1 ≤ h1 → 1 ≤ h2 →
      getStackedRows (renderNodeF lit mode (fuel + 1))
          (vstackFrame [rectNode y1 h1, rectNode y2 h2]) w bg =
        (if jsRound y1 > 2 then [gapFillerRow (jsRound y1) 1] else []) ++
        ["<tr><td>" ++ renderShape (rectNode y1 h1) bg ++ "</td></tr>"] ++
        (if jsRound (y2 - (y1 + h1)) > 2 then
          [gapFillerRow (jsRound (y2 - (y1 + h1))) 1] else []) ++
        ["<tr><td>" ++ renderShape (rectNode y2 h2) bg ++ "</td></tr>"]) ∧
    getStackedRows (renderNodeF false "placeholder" 1)
        (vstackFrame [rectNode 0 20, rectNode 30 5]) 100 ⟨1, 1, 1⟩ =
      ["<tr><td>" ++ renderShape (rectNode 0 20) ⟨1, 1, 1⟩ ++ "</td></tr>",
       gapFillerRow 10 1,
       "<tr><td>" ++ renderShape (rectNode 30 5) ⟨1, 1, 1⟩ ++ "</td></tr>"] ∧
    getStackedRows (renderNodeF false "placeholder" 1)
        (vstackFrame [rectNode 0 20, rectNode 21 5]) 100 ⟨1, 1, 1⟩ =
      ["<tr><td>" ++ renderShape (rectNode 0 20) ⟨1, 1, 1⟩ ++ "</td></tr>",
       "<tr><td>" ++ renderShape (rectNode 21 5) ⟨1, 1, 1⟩ ++ "</td></tr>"] ∧
    (∀ (g : ℤ) (cs : Nat), gapFillerRow g cs =
      "<tr><td height=\"" ++ toString g ++ "\" style=\"height:" ++ toString g ++
        "px; font-size:" ++ toString g ++ "px; line-height:" ++ toString g ++
        "px;\" colspan=\"" ++ toString cs ++ "\">&nbsp;</td></tr>") := by
  have g0 : ¬ (jsRound (0:ℚ) > 2) := by
    rw [show jsRound (0:ℚ) = 0 from by with_unfolding_all rfl]
    decide
  refine ⟨?_, ?_, ?_, fun g cs => rfl⟩
  · intro fuel lit mode bg y1 h1 y2 h2 w hh1 hh2
    exact stackedRows_rect_pair lit mode fuel bg y1 h1 y2 h2 w hh1 hh2
  · show getStackedRows (renderNodeF false "placeholder" (0 + 1))
        (vstackFrame [rectNode 0 20, rectNode 30 5]) 100 ⟨1, 1, 1⟩ = _
    rw [stackedRows_rect_pair false "placeholder" 0 ⟨1, 1, 1⟩ 0 20 30 5 100
      (by norm_num) (by norm_num)]
    rw [show jsRound ((30:ℚ) - (0 + 20)) = 10 from by with_unfolding_all rfl]
    rw [if_neg g0, if_pos (by decide : (10:ℤ) > 2)]
    rfl
  · show getStackedRows (renderNodeF false "placeholder" (0 + 1))
        (vstackFrame [rectNode 0 20, rectNode 21 5]) 100 ⟨1, 1, 1⟩ = _
    rw [stackedRows_rect_pair false "placeholder" 0 ⟨1, 1, 1⟩ 0 20 21 5 100
      (by norm_num) (by norm_num)]
    rw [show jsRound ((21:ℚ) - (0 + 20)) = 1 from by with_unfolding_all rfl]
    rw [if_neg g0, if_neg (by decide : ¬ ((1:ℤ) > 2))]
    rfl

/-- C5 is false as stated about the raw gap: a second child at y 22.4 below
a first child ending at y 20 leaves a gap of 2.4 pixels, greater than 2,
yet no filler row is emitted, because the code rounds the gap before the
comparison and round(2.4) = 2. -/
theorem claim_C5_cex :
    ((22.4 : ℚ) - (0 + 20) > 2) ∧
    getStackedRows (renderNodeF false "placeholder" 1)
        (vstackFrame [rectNode 0 20, rectNode 22.4 5]) 100 ⟨1, 1, 1⟩ =
      ["<tr><td>" ++ renderShape (rectNode 0 20) ⟨1, 1, 1⟩ ++ "</td></tr>",
       "<tr><td>" ++ renderShape (rectNode 22.4 5) ⟨1, 1, 1⟩ ++ "</td></tr>"] ∧
    (∀ (g : ℤ) (cs : Nat),
      gapFillerRow g cs ∉
        getStackedRows (renderNodeF false "placeholder" 1)
          (vstackFrame [rectNode 0 20, rectNode 22.4 5]) 100 ⟨1, 1, 1⟩) := by
  have heq : getStackedRows (renderNodeF false "placeholder" 1)
      (vstackFrame [rectNode 0 20, rectNode 22.4 5]) 100 ⟨1, 1, 1⟩ =
      ["<tr><td>" ++ renderShape (rectNode 0 20) ⟨1, 1, 1⟩ ++ "</td></tr>",
       "<tr><td>" ++ renderShape (rectNode 22.4 5) ⟨1, 1, 1⟩ ++ "</td></tr>"] := by
    show getStackedRows (renderNodeF false "placeholder" (0 + 1))
        (vstackFrame [rectNode 0 20, rectNode 22.4 5]) 100 ⟨1, 1, 1⟩ = _
    rw [stackedRows_rect_pair false "placeholder" 0 ⟨1, 1, 1⟩ 0 20 22.4 5 100
      (by norm_num) (by norm_num)]
    rw [show jsRound ((22.4:ℚ) - (0 + 20)) = 2 from by with_unfolding_all rfl]
    rw [if_neg (by
      rw [show jsRound (0:ℚ) = 0 from by with_unfolding_all rfl]
      decide), if_neg (by decide : ¬ ((2:ℤ) > 2))]
    rfl
  refine ⟨by norm_num, heq, ?_⟩
  intro g cs hmem
  rw [heq] at hmem
  have hL : ((gapFillerRow g cs).data.take 9) = "<tr><td h".data := rfl
  rcases List.mem_cons.mp hmem with h | h
  · have hbad : "<tr><td h".data = "<tr><td><".data := by
      rw [← hL, h]
      decide
    exact absurd hbad (by decide)
  · rcases List.mem_cons.mp h with h2 | h2
    · have hbad : "<tr><td h".data = "<tr><td><".data := by
        rw [← hL, h2]
        decide
      exact absurd hbad (by decide)
    · exact absurd h2 (List.not_mem_nil _)
theorem renderNodeF_invisible (lit : Bool) (mode : String) (fuel : Nat)
    (node : SceneNode) (w : ℚ) (bg : RgbColor) (h : node.visible = false) :
    renderNodeF lit mode fuel node w bg = "" := by
  cases fuel with
  | zero => rfl
  | succ n =>
    unfold renderNodeF renderNodeCore
    rw [if_pos h]

theorem parseLoop_invisible
    (render : SceneNode → ℚ → RgbColor → String) (bg : RgbColor)
    (node : SceneNode) (rest : List SceneNode) (lastY : ℚ)
    (hvis : node.visible = false)
    (hrender : render node node.width bg = "") :
    parseLoop render bg (node :: rest) lastY false =
      (if jsRound (node.y - lastY) > 2 then
        [heightFillerRow (jsRound (node.y - lastY))] else []) ++
      parseLoop render bg rest lastY false := by
  conv_lhs => unfold parseLoop
  rw [hrender, hvis]
  simp only [if_pos rfl, Bool.false_eq_true, if_false]
  rw [if_neg (by decide : ¬ (strTrim "" ≠ ""))]
  simp only [if_true, List.nil_append, List.append_nil]

theorem sortByY_pair (a b : SceneNode) (hab : a.y < b.y) :
    sortByY [b, a] = sortByY [a, b] := by
  rw [show sortByY [b, a] = if b.y ≤ a.y then [b, a] else [a, b] from rfl]
  rw [show sortByY [a, b] = if a.y ≤ b.y then [a, b] else [b, a] from rfl]
  rw [if_neg (not_le.mpr hab), if_pos (le_of_lt hab)]

theorem parse_swap (fuel : Nat) (lit : Bool) (mode : String)
    (a b : SceneNode) (hab : a.y < b.y) :
    parse fuel lit [b, a] mode = parse fuel lit [a, b] mode := by
  unfold parse
  simp only [List.isEmpty]
  rw [sortByY_pair a b hab]
/-- C10 (amended): in the multi-node parse the roots are sorted by y (two
roots listed in either order produce the same output when their y differ);
an invisible root renders as the empty string, contributes no content row,
and does not advance the bottom-Y baseline (the loop continues with the
same lastBottomY), but it does trigger its own gap-filler row whenever the
rounded gap from the baseline to its y exceeds 2. -/
theorem claim_C10 :
    (∀ (fuel : Nat) (lit : Bool) (mode : String) (a b : SceneNode),
      a.y < b.y → parse fuel lit [b, a] mode = parse fuel lit [a, b] mode) ∧
    (∀ (lit : Bool) (mode : String) (fuel : Nat) (node : SceneNode) (w : ℚ)
       (bg : RgbColor), node.visible = false →
      renderNodeF lit mode fuel node w bg = "") ∧
    (∀ (render : SceneNode → ℚ → RgbColor → String) (bg : RgbColor)
       (node : SceneNode) (rest : List SceneNode) (lastY : ℚ),
      node.visible = false → render node node.width bg = "" →
      parseLoop render bg (node :: rest) lastY false =
        (if jsRound (node.y - lastY) > 2 then
          [heightFillerRow (jsRound (node.y - lastY))] else []) ++
        parseLoop render bg rest lastY false) := by
  refine ⟨?_, ?_, ?_⟩
  · intro fuel lit mode a b hab
    exact parse_swap fuel lit mode a b hab
  · intro lit mode fuel node w bg h
    exact renderNodeF_invisible lit mode fuel node w bg h
  · intro render bg node rest lastY hvis hrender
    exact parseLoop_invisible render bg node rest lastY hvis hrender

/-- C10 is false as stated that an invisible root contributes no output
row: with visible rectangles at y 0 (height 10) and y 51 and an invisible
rectangle at y 50 between them, the output contains a filler row of height
40 emitted for the invisible root itself (round(50 - 10)), followed by the
claim's filler of height 41 measured from the last visible bottom
(round(51 - 10)). -/
theorem claim_C10_cex :
    invisRect.visible = false ∧
    parse 1 false [rectNode 0 10, invisRect, rectNode 51 5] "placeholder" =
      "<tr><td>" ++ renderShape (rectNode 0 10) ⟨1, 1, 1⟩ ++ "</td></tr>" ++
      heightFillerRow 40 ++ heightFillerRow 41 ++
      "<tr><td>" ++ renderShape (rectNode 51 5) ⟨1, 1, 1⟩ ++ "</td></tr>" := by
  refine ⟨rfl, ?_⟩
  set_option maxRecDepth 100000 in with_unfolding_all rfl
end FigmaPlugin
